import Mathlib

/-!
Verification development for the sovereign-stack repository.

Shallow embedding of the core components (canonicalizer/hasher, keystore,
event log, mandate module, receipt module, receipt chain, MCP-FS adapter
kernel) translated from the TypeScript sources, together with theorems
settling the specification claims.

Modelling conventions:
* JavaScript strings are modelled as `List Char` (`Str`).
* JSON-representable values are modelled by the inductive `Val`; the
  `canonicalize` library (RFC 8785-style: object keys sorted by code unit,
  no whitespace) is modelled by `canonString`, and `JSON.stringify`
  (insertion order preserved) by `stringifyVal`.
* SHA-256 digests are modelled symbolically by injective tagging functions
  (`sha256hex`, `sha256b64url`): the development never relies on any
  property of SHA-256 beyond determinism and collision-freeness.
* Ed25519 is modelled symbolically: a keypair is identified by a natural
  `key`; a genuine signature records the signing key and the signed digest,
  and verification succeeds exactly on genuine signatures by the matching
  key over the matching digest.  Undecodable signature strings (the hex
  decoding failures caught in `InMemoryKeystore.verify`) are the
  `SigV.invalid` case, on which verification returns `false`.
* Timestamps (RFC 3339 instants) are modelled by their epoch value
  (`Int`); `Date` parsing/formatting is the injective `intToStr` rendering
  and date comparison is integer comparison.
* Values drawn from the clock / RNG / UUID generator (ids, timestamps,
  fresh key material) are passed as explicit arguments.
-/

namespace Sov

/-- JavaScript strings, modelled as lists of characters. -/
abbrev Str := List Char

/-- Turn a Lean string literal into a `Str`. -/
def str (s : String) : Str := s.data

/-- The `{` character (written via its code point). -/
def lbrace : Char := Char.ofNat 123

/-- The `}` character (written via its code point). -/
def rbrace : Char := Char.ofNat 125

/-- The `"` character (written via its code point). -/
def dquote : Char := Char.ofNat 34

/-- The `\` character (written via its code point). -/
def bslash : Char := Char.ofNat 92

/-- The apostrophe character (written via its code point). -/
def apos : Char := Char.ofNat 39

/-- Decimal rendering of a natural number. -/
def natToStr (n : Nat) : Str := Nat.toDigits 10 n

/-- Decimal rendering of an integer (shortest round-trip form for the
integers this development serializes). -/
def intToStr (n : Int) : Str :=
  if n < 0 then '-' :: natToStr n.natAbs else natToStr n.toNat

/-- Lexicographic comparison of strings by code unit, as used by
JavaScript array sort on strings (and by the `canonicalize` library for
object keys). -/
def strLt : Str → Str → Bool
  | [], [] => false
  | [], _ :: _ => true
  | _ :: _, [] => false
  | a :: as, b :: bs =>
    if a.val < b.val then true
    else if a = b then strLt as bs
    else false

/-- Concatenate a list of strings with a separator. -/
def joinSep (sep : Str) : List Str → Str
  | [] => []
  | [x] => x
  | x :: xs => x ++ sep ++ joinSep sep xs

/-- JSON-representable values (the dynamically typed payloads of the
TypeScript source). -/
inductive Val where
  | vnull : Val
  | vbool (b : Bool) : Val
  | vnum (n : Int) : Val
  | vstr (s : Str) : Val
  | varr (xs : List Val) : Val
  | vobj (fields : List (Str × Val)) : Val

/-- Insert a field into a key-sorted field list (insertion-sort step of
the key sorting performed by the `canonicalize` library). -/
def insertField (f : Str × Val) : List (Str × Val) → List (Str × Val)
  | [] => [f]
  | g :: gs => if strLt f.1 g.1 then f :: g :: gs else g :: insertField f gs

/-- Sort object fields by key (code-unit order), as the `canonicalize`
library does. -/
def sortFields (fs : List (Str × Val)) : List (Str × Val) :=
  fs.foldr insertField []

/-- JSON string-body escaping.  Only `"` and `\` are escaped; the model
never produces control characters, so their escapes are not needed. -/
def escapeStr (s : Str) : Str :=
  s.flatMap fun c => if c = dquote ∨ c = bslash then [bslash, c] else [c]

/-- A JSON string literal: quoted and escaped. -/
def quoteStr (s : Str) : Str := dquote :: escapeStr s ++ [dquote]

mutual

/-- Serialize a `Val` to JSON text, object keys in the order given
(this is `JSON.stringify`: no whitespace, insertion order preserved). -/
def serializeVal : Val → Str
  | .vnull => str "null"
  | .vbool true => str "true"
  | .vbool false => str "false"
  | .vnum n => intToStr n
  | .vstr s => quoteStr s
  | .varr xs => '[' :: joinSep (str ",") (serializeList xs) ++ [']']
  | .vobj fs => lbrace :: joinSep (str ",") (serializeFields fs) ++ [rbrace]

/-- Serialize each element of a JSON array. -/
def serializeList : List Val → List Str
  | [] => []
  | v :: vs => serializeVal v :: serializeList vs

/-- Serialize each `key:value` pair of a JSON object. -/
def serializeFields : List (Str × Val) → List Str
  | [] => []
  | (k, v) :: fs => (quoteStr k ++ ':' :: serializeVal v) :: serializeFields fs

end

mutual

/-- Recursively sort all object keys of a value into code-unit order
(the key ordering pass of the `canonicalize` library). -/
def sortVal : Val → Val
  | .vnull => .vnull
  | .vbool b => .vbool b
  | .vnum n => .vnum n
  | .vstr s => .vstr s
  | .varr xs => .varr (sortValList xs)
  | .vobj fs => .vobj (sortFields (sortValFields fs))

/-- Recursively sort object keys in each element of an array. -/
def sortValList : List Val → List Val
  | [] => []
  | v :: vs => sortVal v :: sortValList vs

/-- Recursively sort object keys in each field value. -/
def sortValFields : List (Str × Val) → List (Str × Val)
  | [] => []
  | (k, v) :: fs => (k, sortVal v) :: sortValFields fs

end

/-- The `canonicalize` library: deterministic JSON text with object keys
in code-unit order. -/
def canonString (v : Val) : Str := serializeVal (sortVal v)

/-- `JSON.stringify`: JSON text with object keys in insertion order. -/
def stringifyVal (v : Val) : Str := serializeVal v

/-- `hex(sha256(bytes))`, modelled as an injective symbolic tag. -/
def sha256hex (b : Str) : Str := str "sha256hex:" ++ b

/-- `base64urlEncode(sha256(bytes))` (receipt-chain package), modelled as
an injective symbolic tag distinct from the hex encoding. -/
def sha256b64url (b : Str) : Str := str "sha256b64url:" ++ b

/-- `hashCanonical` (core-schemas `types.ts`): hex SHA-256 of the
canonical form. -/
def hashCanonical (v : Val) : Str := sha256hex (canonString v)

/-!  ## Keystore (`InMemoryKeystore`, keystore/index.ts)

Ed25519 is modelled symbolically: each keypair is identified by a natural
number `key`; the public key bytes are determined by it, and a genuine
signature records the signing keypair and the digest.  Hex signature
strings that fail to decode (caught in `verify`) are `SigV.invalid`. -/

/-- A (hex-encoded) Ed25519 signature value. -/
inductive SigV where
  /-- A genuine signature produced by keypair `key` over `digest`. -/
  | genuine (key : Nat) (digest : Str) : SigV
  /-- Any other string in signature position (undecodable hex, forged or
  empty); Ed25519 verification never accepts it. -/
  | invalid (raw : Str) : SigV
deriving DecidableEq

/-- Render a signature value as the hex string stored in signed
structures (injective symbolic stand-in for the 128-hex-char
encoding). -/
def sigToStr : SigV → Str
  | .genuine k d => str "ed25519sig:" ++ natToStr k ++ str ":" ++ d
  | .invalid raw => raw

/-- A stored keypair: `key` identifies the Ed25519 keypair (public key
bytes are determined by it); `hasPrivate` records whether the private
component is present (`privateKey?` in the source). -/
structure KeyPair where
  key : Nat
  hasPrivate : Bool
deriving DecidableEq

/-- The in-memory keystore: a map from key ids (`ed25519:<actor>`) to
keypairs. -/
structure InMemoryKeystore where
  keys : List (Str × KeyPair)
deriving DecidableEq

/-- Look up a keypair by key id (`Map.get`). -/
def findKey : List (Str × KeyPair) → Str → Option KeyPair
  | [], _ => none
  | (k, kp) :: rest, keyId => if k = keyId then some kp else findKey rest keyId

/-- `ensureUserKey`: return the key id `ed25519:<actor>`, generating a
fresh keypair (`fresh` models the random private key) if absent. -/
def ensureUserKey (ks : InMemoryKeystore) (actorId : Str) (fresh : Nat) :
    Str × InMemoryKeystore :=
  let keyId := str "ed25519:" ++ actorId
  match findKey ks.keys keyId with
  | some _ => (keyId, ks)
  | none => (keyId, ⟨ks.keys ++ [(keyId, ⟨fresh, true⟩)]⟩)

/-- `InMemoryKeystore.sign`: sign a digest with the named key; fails when
the key is absent or lacks a private component (the source throws
`Key not found or private key unavailable: <keyId>`; the spec calls this
failure `MissingPrivateKey`). -/
def keystoreSign (ks : InMemoryKeystore) (digest : Str) (keyId : Str) :
    Except Str SigV :=
  match findKey ks.keys keyId with
  | some kp =>
    if kp.hasPrivate then .ok (.genuine kp.key digest)
    else .error (str "Key not found or private key unavailable: " ++ keyId)
  | none => .error (str "Key not found or private key unavailable: " ++ keyId)

/-- `InMemoryKeystore.verify`: total Boolean verification; decoding
failures are caught and yield `false` (the `SigV.invalid` case). -/
def keystoreVerify (sig : SigV) (digest : Str) (publicKey : Nat) : Bool :=
  match sig with
  | .genuine k d => k == publicKey && d == digest
  | .invalid _ => false

/-- `InMemoryKeystore.getPublicKey`: the public key for a key id, if
present (returned whether or not the private component exists). -/
def getPublicKey (ks : InMemoryKeystore) (keyId : Str) : Option Nat :=
  (findKey ks.keys keyId).map KeyPair.key

/-!  ## Event log (`EventLog`, event-log/index.ts) -/

/-- An entry of the append-only event log (`CanonicalEvent`). -/
structure CanonicalEvent where
  id : Str
  type : Str
  timestamp : Int
  payload : Val
  signer : Str
  signature : SigV
  prev_hash : Option Str

/-- Canonical-JSON object fields of an event with the `signature` field
removed (`const { signature: _, ...toSign } = fullEvent`), keys listed in
code-unit order; an absent `prev_hash` (`undefined`) is dropped by the
`canonicalize` library. -/
def eventSansSigVal (e : CanonicalEvent) : Val :=
  .vobj
    ([(str "id", .vstr e.id)] ++
      [(str "payload", e.payload)] ++
      (match e.prev_hash with
       | some h => [(str "prev_hash", Val.vstr h)]
       | none => []) ++
      [(str "signer", .vstr e.signer)] ++
      [(str "timestamp", .vstr (intToStr e.timestamp))] ++
      [(str "type", .vstr e.type)])

/-- Canonical-JSON object of the entire event, signature included (the
value hashed into the next event's `prev_hash`). -/
def eventVal (e : CanonicalEvent) : Val :=
  .vobj
    ([(str "id", .vstr e.id)] ++
      [(str "payload", e.payload)] ++
      (match e.prev_hash with
       | some h => [(str "prev_hash", Val.vstr h)]
       | none => []) ++
      [(str "signature", .vstr (sigToStr e.signature))] ++
      [(str "signer", .vstr e.signer)] ++
      [(str "timestamp", .vstr (intToStr e.timestamp))] ++
      [(str "type", .vstr e.type)])

/-- `EventLog.append`: compute `prev_hash` from the current tail, build
the full event (generated `id` and clock reading are the explicit
`freshId`/`now` arguments), sign the event minus its signature field, and
push.  The only failure is the keystore signing error; canonicalization
of the model's values always succeeds. -/
def appendEvent (log : List CanonicalEvent) (ks : InMemoryKeystore)
    (etype : Str) (payload : Val) (signer : Str) (freshId : Str)
    (now : Int) : Except Str (List CanonicalEvent × Str) :=
  let prev_hash := log.getLast?.map fun e => hashCanonical (eventVal e)
  let e0 : CanonicalEvent :=
    { id := freshId, type := etype, timestamp := now, payload := payload,
      signer := signer, signature := .invalid [], prev_hash := prev_hash }
  let digest := canonString (eventSansSigVal e0)
  match keystoreSign ks digest (str "ed25519:" ++ signer) with
  | .error e => .error e
  | .ok sig => .ok (log ++ [{ e0 with signature := sig }], freshId)

/-- `EventFilter` for `EventLog.query`. -/
structure EventFilter where
  type : Option Str := none
  signer : Option Str := none
  limit : Option Nat := none
  since : Option Int := none

/-- `EventLog.query`: filter by type, signer and since-timestamp, then
apply the limit.  A limit of `0` is falsy in the source and therefore a
no-op. -/
def queryLog (log : List CanonicalEvent) (f : EventFilter) :
    List CanonicalEvent :=
  let r := log
  let r := match f.type with
    | some t => r.filter fun e => e.type = t
    | none => r
  let r := match f.signer with
    | some s => r.filter fun e => e.signer = s
    | none => r
  let r := match f.since with
    | some t => r.filter fun e => t ≤ e.timestamp
    | none => r
  match f.limit with
  | some n => if n = 0 then r else r.take n
  | none => r

/-- The hash-chain continuity check of `verifyChain` for one event:
for index `i > 0`, recompute the hash of the entire previous event and
compare it with `prev_hash`. -/
def hashLinkErrors (i : Nat) (prevOpt : Option CanonicalEvent)
    (e : CanonicalEvent) : List Str :=
  match prevOpt with
  | some prev =>
    if e.prev_hash = some (hashCanonical (eventVal prev)) then []
    else [str "Event " ++ e.id ++ str ": Hash chain broken at index " ++
           natToStr i]
  | none => []

/-- The signature check of `verifyChain` for one event: re-canonicalize
the event minus its signature and verify under the signer's public
key. -/
def sigCheckErrors (ks : InMemoryKeystore) (e : CanonicalEvent) :
    List Str :=
  match getPublicKey ks (str "ed25519:" ++ e.signer) with
  | none => [str "Event " ++ e.id ++ str ": No public key for signer " ++
              e.signer]
  | some pk =>
    if keystoreVerify e.signature (canonString (eventSansSigVal e)) pk then []
    else [str "Event " ++ e.id ++ str ": Invalid signature"]

/-- The error entries `verifyChain` pushes for one event: the hash-chain
check against the previous event (for index `i > 0`) followed by the
signature check. -/
def eventErrors (ks : InMemoryKeystore) (i : Nat)
    (prevOpt : Option CanonicalEvent) (e : CanonicalEvent) : List Str :=
  hashLinkErrors i prevOpt e ++ sigCheckErrors ks e

/-- The loop of `EventLog.verifyChain`, threading the index and previous
event. -/
def chainErrorsAux (ks : InMemoryKeystore) :
    Nat → Option CanonicalEvent → List CanonicalEvent → List Str
  | _, _, [] => []
  | i, prevOpt, e :: rest =>
    eventErrors ks i prevOpt e ++ chainErrorsAux ks (i + 1) (some e) rest

/-- The result record of `EventLog.verifyChain`. -/
structure ChainVerificationResult where
  valid : Bool
  errors : List Str
  eventsVerified : Nat
deriving DecidableEq

/-- `EventLog.verifyChain`: accumulate hash-chain and signature errors
over the whole log; valid iff no error. -/
def verifyChain (log : List CanonicalEvent) (ks : InMemoryKeystore) :
    ChainVerificationResult :=
  let errors := chainErrorsAux ks 0 none log
  { valid := errors.isEmpty, errors := errors,
    eventsVerified := log.length }

/-- Read a string-valued field of an (opaque) payload, as the source's
`(evt.payload as { mandate_id?: string })?.mandate_id` access: returns
the string only when the payload is an object carrying a string there. -/
def getStrField (p : Val) (key : Str) : Option Str :=
  match p with
  | .vobj fs =>
    match fs.find? (fun f => f.1 = key) with
    | some (_, .vstr s) => some s
    | _ => none
  | _ => none

/-- `EventLog.isMandateRevoked`: true iff some `MANDATE_REVOKE` event's
payload carries `mandate_id` equal to the argument. -/
def isMandateRevoked (log : List CanonicalEvent) (mandateId : Str) : Bool :=
  log.any fun e =>
    e.type = str "MANDATE_REVOKE" &&
      getStrField e.payload (str "mandate_id") = some mandateId

/-- A request to `EventLog.append` (the caller-chosen fields plus the
generated id and clock reading). -/
structure AppendReq where
  type : Str
  payload : Val
  signer : Str
  id : Str
  timestamp : Int

/-- Build a log by a sequence of `append` calls. -/
def appendMany (ks : InMemoryKeystore) (log : List CanonicalEvent) :
    List AppendReq → Except Str (List CanonicalEvent)
  | [] => .ok log
  | r :: rs =>
    match appendEvent log ks r.type r.payload r.signer r.id r.timestamp with
    | .error e => .error e
    | .ok (log', _) => appendMany ks log' rs

/-!  ## Mandate module (core-schemas mandate/index.ts) -/

/-- `MandateScope`: allowed action/resource patterns and the optional
budget cap. -/
structure MandateScope where
  actions : List Str
  resources : List Str
  max_value : Option Int := none
  currency : Option Str := none

/-- `MandateValidity`: the optional validity window (RFC 3339 instants,
modelled by epoch values). -/
structure MandateValidity where
  not_before : Option Int := none
  not_after : Option Int := none

/-- `DelegationMandate`. -/
structure DelegationMandate where
  mandate_id : Str
  issuer : Str
  delegate : Str
  scope : MandateScope
  validity : MandateValidity
  constraints : Option Val := none
  created_at : Int
  signature : SigV

/-- Canonical-JSON object fields of a mandate with the `signature` field
removed, keys in code-unit order; absent optional fields are dropped. -/
def mandateSansSigVal (m : DelegationMandate) : Val :=
  .vobj
    ((match m.constraints with
      | some c => [(str "constraints", c)]
      | none => []) ++
      [(str "created_at", .vstr (intToStr m.created_at))] ++
      [(str "delegate", .vstr m.delegate)] ++
      [(str "issuer", .vstr m.issuer)] ++
      [(str "mandate_id", .vstr m.mandate_id)] ++
      [(str "scope", .vobj
        ([(str "actions", Val.varr (m.scope.actions.map Val.vstr))] ++
          (match m.scope.currency with
           | some c => [(str "currency", Val.vstr c)]
           | none => []) ++
          (match m.scope.max_value with
           | some v => [(str "max_value", Val.vnum v)]
           | none => []) ++
          [(str "resources", Val.varr (m.scope.resources.map Val.vstr))]))] ++
      [(str "validity", .vobj
        ((match m.validity.not_after with
          | some t => [(str "not_after", Val.vstr (intToStr t))]
          | none => []) ++
          (match m.validity.not_before with
           | some t => [(str "not_before", Val.vstr (intToStr t))]
           | none => [])))])

/-- `canonicalizeMandate`: canonical bytes of the mandate minus its
signature. -/
def canonicalizeMandate (m : DelegationMandate) : Str :=
  canonString (mandateSansSigVal m)

/-- Parameters of `createMandate`. -/
structure CreateMandateParams where
  issuer : Str
  delegate : Str
  scope : MandateScope
  validity : MandateValidity
  constraints : Option Val := none

/-- `createMandate`: an unsigned mandate (empty `signature`) with a
freshly minted id (`freshId`) and the current time. -/
def createMandate (p : CreateMandateParams) (freshId : Str) (now : Int) :
    DelegationMandate :=
  { mandate_id := freshId, issuer := p.issuer, delegate := p.delegate,
    scope := p.scope, validity := p.validity, constraints := p.constraints,
    created_at := now, signature := .invalid [] }

/-- `signMandate`: sign the canonical form with the given keystore key. -/
def signMandate (m : DelegationMandate) (ks : InMemoryKeystore)
    (signerKeyId : Str) : Except Str DelegationMandate :=
  match keystoreSign ks (canonicalizeMandate m) signerKeyId with
  | .error e => .error e
  | .ok sig => .ok { m with signature := sig }

/-- The `{ valid, errors }` result record of the verify operations. -/
structure ValidationResult where
  valid : Bool
  errors : List Str
deriving DecidableEq

/-- The error `verifyMandate` pushes when `validity.not_before` is set
and still in the future. -/
def notBeforeErrors (m : DelegationMandate) (now : Int) : List Str :=
  match m.validity.not_before with
  | some nb =>
    if now < nb then
      [str "Mandate not yet valid (not_before: " ++ intToStr nb ++ str ")"]
    else []
  | none => []

/-- The error `verifyMandate` pushes when `validity.not_after` is set
and already past. -/
def notAfterErrors (m : DelegationMandate) (now : Int) : List Str :=
  match m.validity.not_after with
  | some na =>
    if na < now then
      [str "Mandate expired (not_after: " ++ intToStr na ++ str ")"]
    else []
  | none => []

/-- The error `verifyMandate` pushes when an event log is provided and
records a revocation of this mandate. -/
def revocationErrors (m : DelegationMandate)
    (eventLog : Option (List CanonicalEvent)) : List Str :=
  match eventLog with
  | some log =>
    if isMandateRevoked log m.mandate_id then
      [str "Mandate has been revoked"]
    else []
  | none => []

/-- The error `verifyMandate` pushes from the signature check: missing
issuer key, or failing Ed25519 verification over the canonical form. -/
def signatureErrors (m : DelegationMandate) (ks : InMemoryKeystore) :
    List Str :=
  match getPublicKey ks (str "ed25519:" ++ m.issuer) with
  | none => [str "No public key found for issuer: " ++ m.issuer]
  | some pk =>
    if keystoreVerify m.signature (canonicalizeMandate m) pk then []
    else [str "Invalid signature"]

/-- `verifyMandate`: accumulate (in order, without short-circuiting) the
validity-window errors, the revocation error (when an event log is
provided) and the signature error; valid iff no error. -/
def verifyMandate (m : DelegationMandate) (ks : InMemoryKeystore)
    (eventLog : Option (List CanonicalEvent)) (now : Int) :
    ValidationResult :=
  let errors := notBeforeErrors m now ++ notAfterErrors m now ++
    revocationErrors m eventLog ++ signatureErrors m ks
  { valid := errors.isEmpty, errors := errors }

/-- `revokeMandate`: append a `MANDATE_REVOKE` event signed by
`revokedBy`. -/
def revokeMandate (mandateId : Str) (reason : Str) (revokedBy : Str)
    (ks : InMemoryKeystore) (log : List CanonicalEvent) (freshId : Str)
    (now : Int) : Except Str (List CanonicalEvent × Str) :=
  appendEvent log ks (str "MANDATE_REVOKE")
    (.vobj
      [(str "mandate_id", .vstr mandateId),
        (str "reason", .vstr reason),
        (str "revoked_at", .vstr (intToStr now)),
        (str "revoked_by", .vstr revokedBy)])
    revokedBy freshId now

/-- The pattern match of `isActionAllowed` / `isResourceAllowed` for one
pattern: `*`, exact match, or `prefix:*` with the candidate starting with
`prefix:` (the source's `allowed.endsWith(':*') &&
candidate.startsWith(allowed.slice(0, -1))`). -/
def patternMatches (allowed candidate : Str) : Bool :=
  allowed = str "*" || allowed = candidate ||
    ((str ":*").isSuffixOf allowed && allowed.dropLast.isPrefixOf candidate)

/-- `isActionAllowed`: some pattern in `scope.actions` matches. -/
def isActionAllowed (m : DelegationMandate) (action : Str) : Bool :=
  m.scope.actions.any fun allowed => patternMatches allowed action

/-- `isResourceAllowed`: some pattern in `scope.resources` matches. -/
def isResourceAllowed (m : DelegationMandate) (resource : Str) : Bool :=
  m.scope.resources.any fun allowed => patternMatches allowed resource

/-- `isWithinBudget`: true iff `max_value` is unset or the value does not
exceed it. -/
def isWithinBudget (m : DelegationMandate) (value : Int) : Bool :=
  match m.scope.max_value with
  | none => true
  | some mv => value ≤ mv

/-!  ## Receipt module (core-schemas receipt/index.ts) -/

/-- `ExecutionReceipt`. -/
structure ExecutionReceipt where
  receipt_id : Str
  mandate_id : Option Str := none
  actor : Str
  action : Str
  request_hash : Str
  response_hash : Option Str := none
  provider_metadata : Option Val := none
  timestamp : Int
  mirror_ref : Str
  signature : SigV

/-- Canonical-JSON object fields of a receipt with the `signature` field
removed, keys in code-unit order; absent optional fields are dropped. -/
def receiptSansSigVal (r : ExecutionReceipt) : Val :=
  .vobj
    ([(str "action", .vstr r.action)] ++
      [(str "actor", .vstr r.actor)] ++
      (match r.mandate_id with
       | some m => [(str "mandate_id", Val.vstr m)]
       | none => []) ++
      [(str "mirror_ref", .vstr r.mirror_ref)] ++
      (match r.provider_metadata with
       | some md => [(str "provider_metadata", md)]
       | none => []) ++
      [(str "receipt_id", .vstr r.receipt_id)] ++
      [(str "request_hash", .vstr r.request_hash)] ++
      (match r.response_hash with
       | some h => [(str "response_hash", Val.vstr h)]
       | none => []) ++
      [(str "timestamp", .vstr (intToStr r.timestamp))])

/-- Parameters of `issueReceipt`. -/
structure IssueReceiptParams where
  mandate_id : Option Str := none
  actor : Str
  action : Str
  request_hash : Str
  response_hash : Option Str := none
  provider_metadata : Option Val := none
  mirror_ref : Str

/-- `issueReceipt`: build the receipt (fresh id and clock reading passed
explicitly), canonicalize it with `signature` stripped, and sign with the
given keystore key. -/
def issueReceipt (p : IssueReceiptParams) (ks : InMemoryKeystore)
    (signerKeyId : Str) (freshId : Str) (now : Int) :
    Except Str ExecutionReceipt :=
  let r0 : ExecutionReceipt :=
    { receipt_id := freshId, mandate_id := p.mandate_id, actor := p.actor,
      action := p.action, request_hash := p.request_hash,
      response_hash := p.response_hash,
      provider_metadata := p.provider_metadata, timestamp := now,
      mirror_ref := p.mirror_ref, signature := .invalid [] }
  match keystoreSign ks (canonString (receiptSansSigVal r0)) signerKeyId with
  | .error e => .error e
  | .ok sig => .ok { r0 with signature := sig }

/-!  ## Receipt chain (receipt-chain/src/receipt-chain.ts) -/

/-- A link of the receipt chain (`ChainedReceipt`). -/
structure ChainedReceipt where
  receiptHash : Str
  receiptId : Str
  previousHash : Str
  timestamp : Int
  index : Nat
deriving DecidableEq

/-- The `chainData` object hashed into a link's `receiptHash`, keys in
code-unit order.  `previousHash` is an explicit `null` (not dropped) when
absent. -/
def chainDataVal (receiptId : Str) (receiptDataHash : Str)
    (previousHash : Option Str) (index : Nat) (timestamp : Int) : Val :=
  .vobj
    [(str "index", .vnum index),
      (str "previousHash",
        match previousHash with
        | some h => Val.vstr h
        | none => Val.vnull),
      (str "receiptDataHash", .vstr receiptDataHash),
      (str "receiptId", .vstr receiptId),
      (str "timestamp", .vstr (intToStr timestamp))]

/-- `ReceiptChain.addReceipt`: hash the canonicalized receipt data, hash
the chain data (with `previousHash` of the previous link, or `null` for
the first link), and push the link; the stored `previousHash` of the
first link is its own hash.  Returns the new chain and hash. -/
def addReceipt (chain : List ChainedReceipt) (receiptId : Str)
    (receiptData : Val) (now : Int) : List ChainedReceipt × Str :=
  let previousHash := chain.getLast?.map ChainedReceipt.receiptHash
  let receiptDataStr := canonString receiptData
  let receiptDataHash := sha256b64url receiptDataStr
  let chainDataStr :=
    canonString (chainDataVal receiptId receiptDataHash previousHash
      chain.length now)
  let receiptHash := sha256b64url chainDataStr
  (chain ++
    [{ receiptHash := receiptHash, receiptId := receiptId,
       previousHash := previousHash.getD receiptHash, timestamp := now,
       index := chain.length }],
    receiptHash)

/-- `ReceiptChain.verifyReceipt`: find the link by id, reconstruct the
chain data from the supplied receipt data (using the previous link's hash,
or the link's own hash at index 0), compare the recomputed hash, and
check continuity with the prior link. -/
def verifyReceipt (chain : List ChainedReceipt) (receiptId : Str)
    (receiptData : Val) : Bool :=
  match chain.findIdx? (fun r => r.receiptId = receiptId) with
  | none => false
  | some receiptIndex =>
    match chain[receiptIndex]? with
    | none => false
    | some receipt =>
      let receiptDataStr := canonString receiptData
      let receiptDataHash := sha256b64url receiptDataStr
      let previousHash :=
        if receiptIndex = 0 then receipt.receiptHash
        else
          match chain[receiptIndex - 1]? with
          | some prev => prev.receiptHash
          | none => receipt.receiptHash
      let chainDataStr :=
        canonString (chainDataVal receiptId receiptDataHash
          (some previousHash) receiptIndex receipt.timestamp)
      let expectedHash := sha256b64url chainDataStr
      if expectedHash ≠ receipt.receiptHash then false
      else if receiptIndex = 0 then true
      else
        match chain[receiptIndex - 1]? with
        | some prev => receipt.previousHash = prev.receiptHash
        | none => true

/-!  ## MCP-FS adapter kernel (adapter-mcp-fs/src/index.ts) -/

/-- A proposed tool action (`ToolAction`): tool name and arguments. -/
structure ToolAction where
  tool : Str
  arguments : Val

/-- Canonical-JSON object of a tool action (the `action` value captured
in the Mirror and in the `SUGGESTION` payload); the model lists the keys
pre-sorted. -/
def toolActionVal (a : ToolAction) : Val :=
  .vobj [(str "arguments", a.arguments), (str "tool", .vstr a.tool)]

/-- Proposal status (`pending | committed | rejected`). -/
inductive ProposalStatus where
  | pending
  | committed
  | rejected
deriving DecidableEq

/-- The upper-cased status used in the `PROPOSAL_<STATUS>` error. -/
def statusUpper : ProposalStatus → Str
  | .pending => str "PENDING"
  | .committed => str "COMMITTED"
  | .rejected => str "REJECTED"

/-- A proposal held by the adapter. -/
structure Proposal where
  id : Str
  action : ToolAction
  mirrorRef : Str
  eventId : Str
  status : ProposalStatus
  createdAt : Int

/-- A Mirror entry (`SimpleMirror` stores these). -/
structure MirrorEntry where
  id : Str
  agentId : Str
  prompt : Str
  request_hash : Str
  timestamp : Int
  provider_metadata : Option Val := none

/-- The adapter's mutable state: the proposal map (association list in
insertion order), event log, keystore and mirror. -/
structure AdapterState where
  proposals : List Proposal
  eventLog : List CanonicalEvent
  keystore : InMemoryKeystore
  mirror : List MirrorEntry

/-- `this.proposals.get(id)`. -/
def findProposal (ps : List Proposal) (id : Str) : Option Proposal :=
  ps.find? fun p => p.id = id

/-- `this.proposals.set(p.id, p)`: replace the entry with this id, or
append it (JS `Map` keeps insertion order on update). -/
def setProposal (ps : List Proposal) (p : Proposal) : List Proposal :=
  if ps.any fun q => q.id = p.id then
    ps.map fun q => if q.id = p.id then p else q
  else ps ++ [p]

/-- Update the status of the proposal with the given id (the source
mutates the stored proposal object in place). -/
def setStatus (ps : List Proposal) (id : Str) (st : ProposalStatus) :
    List Proposal :=
  ps.map fun p => if p.id = id then { p with status := st } else p

/-- The module-level `isMandateRevoked` of the adapter: query the log for
`MANDATE_REVOKE` events and test their payloads. -/
def adapterIsMandateRevoked (mandateId : Str)
    (log : List CanonicalEvent) : Bool :=
  (queryLog log { type := some (str "MANDATE_REVOKE") }).any fun e =>
    getStrField e.payload (str "mandate_id") = some mandateId

/-- `MCPFSAdapter.isActionInScope` (same wildcard rule as
`isActionAllowed`). -/
def isActionInScope (action : Str) (m : DelegationMandate) : Bool :=
  m.scope.actions.any fun allowed => patternMatches allowed action

/-- The generated values consumed by one `propose` call. -/
structure ProposeFresh where
  agentKeySeed : Nat
  mirrorId : Str
  suggestionEvtId : Str
  proposalId : Str
  now : Int

/-- `MCPFSAdapter.propose`: ensure the agent key, capture the action in
the Mirror, append a `SUGGESTION` event signed by the agent, and record
the pending proposal. -/
def propose (st : AdapterState) (action : ToolAction) (agentId : Str)
    (f : ProposeFresh) : Except Str (AdapterState × Proposal) :=
  let ks1 := (ensureUserKey st.keystore agentId f.agentKeySeed).2
  let prompt := stringifyVal (toolActionVal action)
  let meta : Val :=
    .vobj [(str "adapter", .vstr (str "mcp-fs")),
      (str "tool", .vstr action.tool),
      (str "version", .vstr (str "0.1.0"))]
  let reqParams : Val :=
    .vobj [(str "agentId", .vstr agentId),
      (str "prompt", .vstr prompt),
      (str "providerMetadata", meta)]
  let request_hash := hashCanonical reqParams
  let entry : MirrorEntry :=
    { id := f.mirrorId, agentId := agentId, prompt := prompt,
      request_hash := request_hash, timestamp := f.now,
      provider_metadata := some meta }
  let payload : Val :=
    .vobj [(str "agentId", .vstr agentId),
      (str "estimatedCost", .vnum 0),
      (str "mirrorRef", .vstr f.mirrorId),
      (str "proposedAction", toolActionVal action)]
  match appendEvent st.eventLog ks1 (str "SUGGESTION") payload agentId
      f.suggestionEvtId f.now with
  | .error e => .error e
  | .ok (log1, evtId) =>
    let prop : Proposal :=
      { id := f.proposalId, action := action, mirrorRef := f.mirrorId,
        eventId := evtId, status := .pending, createdAt := f.now }
    .ok ({ proposals := setProposal st.proposals prop, eventLog := log1,
           keystore := ks1, mirror := st.mirror ++ [entry] }, prop)

/-- The generated values consumed by one `commit` call. -/
structure CommitFresh where
  rejectedEvtId : Str
  committedEvtId : Str
  issuerKeySeed : Nat
  receiptId : Str
  receiptEvtId : Str
  now : Int

/-- The result of a successful `commit`. -/
structure ExecResult where
  output : Val
  receipt : ExecutionReceipt

/-- The rejection handling shared by the three gates: mark the proposal
`rejected`, append a `PROPOSAL_REJECTED` event signed by the adapter
identity (`recordRejection`), and fail with the gate's error.  If the
append itself fails (adapter signing key missing) that error propagates,
with the status change already applied. -/
def rejectProposal (st : AdapterState) (prop : Proposal) (reason : Str)
    (details : List Str) (f : CommitFresh) (errMsg : Str) :
    AdapterState × Except Str ExecResult :=
  let st1 := { st with proposals := setStatus st.proposals prop.id .rejected }
  let payload : Val :=
    .vobj [(str "details", .varr (details.map Val.vstr)),
      (str "proposalId", .vstr prop.id),
      (str "reason", .vstr reason)]
  match appendEvent st1.eventLog st1.keystore (str "PROPOSAL_REJECTED")
      payload (str "adapter:mcp-fs") f.rejectedEvtId f.now with
  | .error e => (st1, .error e)
  | .ok (log1, _) => ({ st1 with eventLog := log1 }, .error errMsg)

/-- `MCPFSAdapter.commit`: the τ-Gate enforcement checkpoint.  Returns
the updated adapter state together with the outcome (the source mutates
`this` and throws; the model returns the state in both cases).
`callTool` is the external MCP tool executor. -/
def commit (st : AdapterState) (proposalId : Str)
    (mandate : DelegationMandate) (f : CommitFresh)
    (callTool : Str → Val → Except Str Val) :
    AdapterState × Except Str ExecResult :=
  match findProposal st.proposals proposalId with
  | none => (st, .error (str "PROPOSAL_NOT_FOUND"))
  | some prop =>
    if prop.status ≠ ProposalStatus.pending then
      (st, .error (str "PROPOSAL_" ++ statusUpper prop.status ++
        str ": Cannot commit"))
    else
      let mandateValid :=
        verifyMandate mandate st.keystore (some st.eventLog) f.now
      if ¬ mandateValid.valid then
        rejectProposal st prop (str "INVALID_MANDATE") mandateValid.errors f
          (str "INVALID_MANDATE: " ++ joinSep (str ", ") mandateValid.errors)
      else if adapterIsMandateRevoked mandate.mandate_id st.eventLog then
        rejectProposal st prop (str "REVOKED_MANDATE")
          [str "Authority no longer valid"] f
          (str "REVOKED_MANDATE: Authority no longer valid")
      else if ¬ isActionInScope prop.action.tool mandate then
        rejectProposal st prop (str "SCOPE_VIOLATION")
          [str "Action " ++ [apos] ++ prop.action.tool ++ [apos] ++
            str " not permitted by mandate"] f
          (str "SCOPE_VIOLATION: Action not permitted by mandate")
      else
        match appendEvent st.eventLog st.keystore (str "COMMITTED")
            (.vobj [(str "action", .vstr prop.action.tool),
              (str "mandateId", .vstr mandate.mandate_id),
              (str "proposalId", .vstr prop.id)])
            mandate.delegate f.committedEvtId f.now with
        | .error e => (st, .error e)
        | .ok (log1, _) =>
          match callTool prop.action.tool prop.action.arguments with
          | .error e => ({ st with eventLog := log1 }, .error e)
          | .ok output =>
            let signerKeyId :=
              (ensureUserKey st.keystore mandate.issuer f.issuerKeySeed).1
            let ks1 :=
              (ensureUserKey st.keystore mandate.issuer f.issuerKeySeed).2
            match issueReceipt
                { mandate_id := some mandate.mandate_id,
                  actor := str "adapter:mcp-fs",
                  action := prop.action.tool,
                  request_hash := prop.mirrorRef,
                  response_hash := some (hashCanonical output),
                  provider_metadata := some (.vobj
                    [(str "adapter_version", .vstr (str "0.1.0")),
                      (str "attested_by", .vstr mandate.issuer)]),
                  mirror_ref := prop.mirrorRef }
                ks1 signerKeyId f.receiptId f.now with
            | .error e =>
              ({ st with eventLog := log1, keystore := ks1 }, .error e)
            | .ok receipt =>
              match appendEvent log1 ks1 (str "RECEIPT_ISSUED")
                  (.vobj [(str "mandateId", .vstr mandate.mandate_id),
                    (str "proposalId", .vstr prop.id),
                    (str "receiptId", .vstr receipt.receipt_id)])
                  mandate.issuer f.receiptEvtId f.now with
              | .error e =>
                ({ st with eventLog := log1, keystore := ks1 }, .error e)
              | .ok (log2, _) =>
                ({ proposals := setStatus st.proposals prop.id .committed,
                   eventLog := log2, keystore := ks1,
                   mirror := st.mirror },
                 .ok { output := output, receipt := receipt })

/-!  ## Helper lemmas -/

/-- Boolean prefix test versus existential decomposition. -/
theorem prefixOf_iff (l₁ l₂ : Str) :
    l₁.isPrefixOf l₂ = true ↔ ∃ t, l₁ ++ t = l₂ := by
  rw [ List.isPrefixOf_iff_prefix]; rfl

/-- Boolean suffix test versus existential decomposition. -/
theorem suffixOf_iff (l₁ l₂ : Str) :
    l₁.isSuffixOf l₂ = true ↔ ∃ t, t ++ l₁ = l₂ := by
  rw [ List.isSuffixOf_iff_suffix]; rfl

/-!  ## C6: wildcard scope matching -/

/-- Modelled from the spec: a scope pattern matches a candidate when it
is `*`, equal to the candidate, or of the form `prefix:*` with the
candidate starting with `prefix:` (i.e. the candidate is `prefix:`
followed by some rest). -/
def specPatternMatch (pattern candidate : Str) : Prop :=
  pattern = str "*" ∨ pattern = candidate ∨
    ∃ pre rest, pattern = pre ++ str ":*" ∧
      candidate = (pre ++ str ":") ++ rest

/-- The source's one-pattern test agrees with the spec's wildcard rule. -/
theorem patternMatches_iff (p c : Str) :
    patternMatches p c = true ↔ specPatternMatch p c := by
  have hthird : ((str ":*").isSuffixOf p && p.dropLast.isPrefixOf c) = true ↔
      ∃ pre rest, p = pre ++ str ":*" ∧ c = (pre ++ str ":") ++ rest := by
    rw [Bool.and_eq_true, suffixOf_iff, prefixOf_iff]
    constructor
    · rintro ⟨⟨pre, hpre⟩, rest, hrest⟩
      refine ⟨pre, rest, hpre.symm, ?_⟩
      have hsplit : p = (pre ++ str ":") ++ [ '*' ] := by
        rw [← hpre]; simp [str]
      have hdrop : p.dropLast = pre ++ str ":" := by
        rw [hsplit, List.dropLast_concat]
      rw [hdrop] at hrest
      exact hrest.symm
    · rintro ⟨pre, rest, hp, hc⟩
      have hsplit : p = (pre ++ str ":") ++ [ '*' ] := by
        rw [hp]; simp [str]
      have hdrop : p.dropLast = pre ++ str ":" := by
        rw [hsplit, List.dropLast_concat]
      refine ⟨⟨pre, ?_⟩, rest, ?_⟩
      · rw [hp]
      · rw [hdrop, hc]
  unfold patternMatches specPatternMatch
  simp only [Bool.or_eq_true, decide_eq_true_eq, hthird]
  exact or_assoc

/-- C6: `isActionAllowed` returns true iff some pattern in
`scope.actions` equals `*`, equals the action, or is `prefix:*` with the
action starting with `prefix:`; the same rule holds for
`isResourceAllowed` over `scope.resources`; in particular `a:*` matches
`a:` and `a:x` but not `a`, `*` matches the empty string, and
`payment:*` matches `payment:transfer` but not `payments:x`. -/
theorem scope_matching_spec :
    (∀ (m : DelegationMandate) (action : Str),
      isActionAllowed m action = true ↔
        ∃ p ∈ m.scope.actions, specPatternMatch p action) ∧
    (∀ (m : DelegationMandate) (resource : Str),
      isResourceAllowed m resource = true ↔
        ∃ p ∈ m.scope.resources, specPatternMatch p resource) ∧
    (∀ m : DelegationMandate, m.scope.actions = [str "a:*"] →
      isActionAllowed m (str "a:") = true ∧
        isActionAllowed m (str "a:x") = true ∧
        isActionAllowed m (str "a") = false) ∧
    (∀ m : DelegationMandate, m.scope.actions = [str "*"] →
      isActionAllowed m (str "") = true) ∧
    (∀ m : DelegationMandate, m.scope.actions = [str "payment:*"] →
      isActionAllowed m (str "payment:transfer") = true ∧
        isActionAllowed m (str "payment:refund") = true ∧
        isActionAllowed m (str "payments:x") = false)
    := by
  refine ⟨?_, ?_, ?_, ?_, ?_⟩
  · intro m action
    unfold isActionAllowed
    rw [List.any_eq_true]
    exact exists_congr fun p => and_congr_right fun _ => patternMatches_iff p action
  · intro m resource
    unfold isResourceAllowed
    rw [List.any_eq_true]
    exact exists_congr fun p => and_congr_right fun _ => patternMatches_iff p resource
  · intro m h
    unfold isActionAllowed
    rw [h]
    refine ⟨by decide, by decide, by decide⟩
  · intro m h
    unfold isActionAllowed
    rw [h]
    decide
  · intro m h
    unfold isActionAllowed
    rw [h]
    refine ⟨by decide, by decide, by decide⟩

/-- Sample mandate used to instantiate scope-matching facts. -/
def sampleScopeMandate (acts : List Str) : DelegationMandate :=
  { mandate_id := str "m-scope", issuer := str "user:u",
    delegate := str "agent:a",
    scope := { actions := acts, resources := acts },
    validity := {}, created_at := 0, signature := .invalid [] }

/-- Witness for C6: the scope-matching theorem instantiated at concrete
patterns. -/
theorem scope_matching_spec_witness :
    isActionAllowed (sampleScopeMandate [str "a:*"]) (str "a:") = true ∧
      isActionAllowed (sampleScopeMandate [str "a:*"]) (str "a") = false ∧
      isActionAllowed (sampleScopeMandate [str "payment:*"])
        (str "payments:x") = false :=
  ⟨(scope_matching_spec.2.2.1 (sampleScopeMandate [str "a:*"]) rfl).1,
    (scope_matching_spec.2.2.1 (sampleScopeMandate [str "a:*"]) rfl).2.2,
    (scope_matching_spec.2.2.2.2 (sampleScopeMandate [str "payment:*"])
      rfl).2.2⟩

/-!  ## C9: budget check -/

/-- C9: `isWithinBudget` is true iff `max_value` is unset or the value
does not exceed it; with `max_value = 0` every positive value fails;
with `max_value = 10000` the check is true at 10000 and false at 10001;
with `max_value` unset it is true for every value. -/
theorem isWithinBudget_spec :
    (∀ (m : DelegationMandate) (v : Int),
      isWithinBudget m v = true ↔
        (m.scope.max_value = none ∨
          ∃ mv, m.scope.max_value = some mv ∧ v ≤ mv)) ∧
    (∀ m : DelegationMandate, m.scope.max_value = some 0 →
      ∀ v : Int, 0 < v → isWithinBudget m v = false) ∧
    (∀ m : DelegationMandate, m.scope.max_value = some 10000 →
      isWithinBudget m 10000 = true ∧ isWithinBudget m 10001 = false) ∧
    (∀ m : DelegationMandate, m.scope.max_value = none →
      ∀ v : Int, isWithinBudget m v = true) := by
  refine ⟨?_, ?_, ?_, ?_⟩
  · intro m v
    unfold isWithinBudget
    cases h : m.scope.max_value with
    | none => simp
    | some mv => simp [decide_eq_true_eq]
  · intro m h v hv
    unfold isWithinBudget
    rw [h]
    simpa using hv
  · intro m h
    unfold isWithinBudget
    rw [h]
    exact ⟨by decide, by decide⟩
  · intro m h v
    unfold isWithinBudget
    rw [h]

/-- Sample mandate with a budget cap. -/
def sampleBudgetMandate (mv : Option Int) : DelegationMandate :=
  { mandate_id := str "m-budget", issuer := str "user:u",
    delegate := str "agent:a",
    scope := { actions := [], resources := [], max_value := mv },
    validity := {}, created_at := 0, signature := .invalid [] }

/-- Witness for C9: the budget theorem instantiated at 0, 10000 and
unset caps. -/
theorem isWithinBudget_spec_witness :
    isWithinBudget (sampleBudgetMandate (some 0)) 1 = false ∧
      isWithinBudget (sampleBudgetMandate (some 10000)) 10000 = true ∧
      isWithinBudget (sampleBudgetMandate (some 10000)) 10001 = false ∧
      isWithinBudget (sampleBudgetMandate none) 10001 = true :=
  ⟨isWithinBudget_spec.2.1 (sampleBudgetMandate (some 0)) rfl 1 (by decide),
    (isWithinBudget_spec.2.2.1 (sampleBudgetMandate (some 10000)) rfl).1,
    (isWithinBudget_spec.2.2.1 (sampleBudgetMandate (some 10000)) rfl).2,
    isWithinBudget_spec.2.2.2 (sampleBudgetMandate none) rfl 10001⟩

/-!  ## C8: keystore failure semantics -/

/-- C8: `sign` fails (with the single `MissingPrivateKey`-class error the
source throws as `Key not found or private key unavailable: <keyId>`)
exactly when the key is absent from the keystore or lacks a private
component; `verify` is total and returns `false` on every undecodable
signature instead of throwing. -/
theorem keystore_failure_semantics :
    (∀ (ks : InMemoryKeystore) (digest keyId : Str),
      keystoreSign ks digest keyId =
          .error (str "Key not found or private key unavailable: " ++ keyId) ↔
        (findKey ks.keys keyId = none ∨
          ∃ kp, findKey ks.keys keyId = some kp ∧ kp.hasPrivate = false)) ∧
    (∀ (raw digest : Str) (pk : Nat),
      keystoreVerify (.invalid raw) digest pk = false) := by
  constructor
  · intro ks digest keyId
    unfold keystoreSign
    cases h : findKey ks.keys keyId with
    | none => simp
    | some kp =>
      cases hp : kp.hasPrivate with
      | true => simp [hp]
      | false => simp [hp]
  · intro raw digest pk
    rfl

/-!  ## C4: receipt-chain first-link verification (code bug) -/

/-- The receipt data of the failing input for C4. -/
def c4Data : Val :=
  .vobj [(str "amount", .vnum 4250), (str "currency", .vstr (str "USD"))]

/-- C4 (failing input): immediately after adding the first receipt to an
empty chain, `verifyReceipt` on that receipt returns `false`: `addReceipt`
hashes the chain data with `previousHash: null` for index 0, while
`verifyReceipt` reconstructs it with `previousHash` equal to the link's
own hash, so the recomputed hash never matches the stored one. -/
theorem verifyReceipt_firstLink_false :
    verifyReceipt (addReceipt [] (str "receipt_001") c4Data 10).1
      (str "receipt_001") c4Data = false := by decide

/-!  ## C3: mandate verification -/

/-- The `not yet valid` error is absent exactly when `not_before` is
unset or not in the future. -/
theorem notBeforeErrors_eq_nil_iff (m : DelegationMandate) (now : Int) :
    notBeforeErrors m now = [] ↔
      ∀ nb, m.validity.not_before = some nb → nb ≤ now := by
  cases h : m.validity.not_before with
  | none => simp [notBeforeErrors, h]
  | some nb =>
    simp only [notBeforeErrors, h]
    by_cases hlt : now < nb
    · simp only [hlt, if_true]
      simp only [List.cons_ne_nil, false_iff]
      intro hall
      have := hall nb rfl
      omega
    · simp only [hlt, if_false]
      simp only [true_iff]
      intro x hx
      cases hx
      omega

/-- The `expired` error is absent exactly when `not_after` is unset or
not in the past. -/
theorem notAfterErrors_eq_nil_iff (m : DelegationMandate) (now : Int) :
    notAfterErrors m now = [] ↔
      ∀ na, m.validity.not_after = some na → now ≤ na := by
  cases h : m.validity.not_after with
  | none => simp [notAfterErrors, h]
  | some na =>
    simp only [notAfterErrors, h]
    by_cases hlt : na < now
    · simp only [hlt, if_true]
      simp only [List.cons_ne_nil, false_iff]
      intro hall
      have := hall na rfl
      omega
    · simp only [hlt, if_false]
      simp only [true_iff]
      intro x hx
      cases hx
      omega

/-- The `revoked` error is absent (with a log provided) exactly when the
log records no revocation. -/
theorem revocationErrors_eq_nil_iff (m : DelegationMandate)
    (log : List CanonicalEvent) :
    revocationErrors m (some log) = [] ↔
      isMandateRevoked log m.mandate_id = false := by
  simp only [revocationErrors]
  by_cases h : isMandateRevoked log m.mandate_id
  · simp [h]
  · simp [h]

/-- A mandate actually signed with the issuer's keystore key produces no
signature error. -/
theorem signatureErrors_of_signed (m : DelegationMandate)
    (ks : InMemoryKeystore) (kp : KeyPair)
    (hfind : findKey ks.keys (str "ed25519:" ++ m.issuer) = some kp)
    (hsigform : m.signature = .genuine kp.key (canonicalizeMandate m)) :
    signatureErrors m ks = [] := by
  unfold signatureErrors getPublicKey
  rw [hfind]
  simp [hsigform, keystoreVerify]

/-- C3: for every mandate produced by `signMandate` with the issuer's
key held in the keystore, `verifyMandate` (given the event log) is valid
iff the mandate is within its validity window and no `MANDATE_REVOKE`
event for its id exists in the log; equivalently, it is valid iff the
accumulated error list is empty. -/
theorem verifyMandate_spec (m0 m : DelegationMandate)
    (ks : InMemoryKeystore) (log : List CanonicalEvent) (now : Int)
    (hsig : signMandate m0 ks (str "ed25519:" ++ m0.issuer) = .ok m) :
    ((verifyMandate m ks (some log) now).valid = true ↔
      ((∀ nb, m.validity.not_before = some nb → nb ≤ now) ∧
        (∀ na, m.validity.not_after = some na → now ≤ na) ∧
        isMandateRevoked log m.mandate_id = false)) ∧
    ((verifyMandate m ks (some log) now).valid = true ↔
      (verifyMandate m ks (some log) now).errors = []) := by
  unfold signMandate at hsig
  cases hfind : findKey ks.keys (str "ed25519:" ++ m0.issuer) with
  | none =>
    have hks : keystoreSign ks (canonicalizeMandate m0)
        (str "ed25519:" ++ m0.issuer) =
        .error (str "Key not found or private key unavailable: " ++
          (str "ed25519:" ++ m0.issuer)) := by
      unfold keystoreSign
      rw [hfind]
    rw [hks] at hsig
    exact absurd hsig (by simp)
  | some kp =>
    cases hp : kp.hasPrivate with
    | false =>
      have hks : keystoreSign ks (canonicalizeMandate m0)
          (str "ed25519:" ++ m0.issuer) =
          .error (str "Key not found or private key unavailable: " ++
            (str "ed25519:" ++ m0.issuer)) := by
        unfold keystoreSign
        rw [hfind]
        simp [hp]
      rw [hks] at hsig
      exact absurd hsig (by simp)
    | true =>
      have hks : keystoreSign ks (canonicalizeMandate m0)
          (str "ed25519:" ++ m0.issuer) =
          .ok (.genuine kp.key (canonicalizeMandate m0)) := by
        unfold keystoreSign
        rw [hfind]
        simp [hp]
      rw [hks] at hsig
      simp only [Except.ok.injEq] at hsig
      subst hsig
      have h4 : signatureErrors
          ({ m0 with signature :=
              SigV.genuine kp.key (canonicalizeMandate m0) } :
            DelegationMandate) ks = [] :=
        signatureErrors_of_signed _ ks kp hfind rfl
      constructor
      · simp only [verifyMandate, h4, List.append_nil, List.isEmpty_iff,
          List.append_eq_nil]
        rw [notBeforeErrors_eq_nil_iff, notAfterErrors_eq_nil_iff,
          revocationErrors_eq_nil_iff]
        tauto
      · simp only [verifyMandate, List.isEmpty_iff]

/-- Keystore holding the key of `user:alice` (witness setup). -/
def c3Keystore : InMemoryKeystore :=
  (ensureUserKey ⟨[]⟩ (str "user:alice") 0).2

/-- An unsigned sample mandate issued by `user:alice` (witness setup). -/
def c3M0 : DelegationMandate := createMandate
  { issuer := str "user:alice", delegate := str "agent:bot",
    scope := { actions := [str "*"], resources := [str "*"] },
    validity := {} }
  (str "mid-c3") 5

/-- The sample mandate of `c3M0` signed with the issuer's key. -/
def c3M : DelegationMandate :=
  match signMandate c3M0 c3Keystore (str "ed25519:user:alice") with
  | .ok x => x
  | .error _ => c3M0

/-- Witness for C3: the mandate-verification theorem instantiated on a
concretely signed mandate and the empty event log. -/
theorem verifyMandate_spec_witness :
    (verifyMandate c3M c3Keystore (some []) 6).valid = true :=
  ((verifyMandate_spec c3M0 c3M c3Keystore [] 6 rfl).2).mpr (by decide)

/-!  ## C2: event-log hash chain -/

/-- An event signed by a keystore-held private key over its canonical
sans-signature form. -/
def SigOk (ks : InMemoryKeystore) (e : CanonicalEvent) : Prop :=
  ∃ kp, findKey ks.keys (str "ed25519:" ++ e.signer) = some kp ∧
    kp.hasPrivate = true ∧
    e.signature = .genuine kp.key (canonString (eventSansSigVal e))

/-- The invariant of honestly appended logs: starting from the previous
event `prevOpt`, each event links to its predecessor by `prev_hash` and
carries a genuine keystore signature. -/
def ChainedFrom (ks : InMemoryKeystore) :
    Option CanonicalEvent → List CanonicalEvent → Prop
  | _, [] => True
  | prevOpt, e :: rest =>
    e.prev_hash = prevOpt.map (fun p => hashCanonical (eventVal p)) ∧
      SigOk ks e ∧ ChainedFrom ks (some e) rest

/-- Unfolding `keystoreSign` on success: the key is present with a
private component and the signature is genuine. -/
theorem keystoreSign_ok (ks : InMemoryKeystore) (digest keyId : Str)
    (sig : SigV) (h : keystoreSign ks digest keyId = .ok sig) :
    ∃ kp, findKey ks.keys keyId = some kp ∧ kp.hasPrivate = true ∧
      sig = .genuine kp.key digest := by
  unfold keystoreSign at h
  split at h
  next kp hfind =>
    split at h
    next hp =>
      simp only [Except.ok.injEq] at h
      exact ⟨kp, hfind, hp, h.symm⟩
    next hp => exact absurd h (by simp)
  next hfind => exact absurd h (by simp)

/-- Unfolding `appendEvent` on success: the log is extended by one event
whose `prev_hash` links the previous tail and whose signature is genuine
under the signer's keystore key. -/
theorem appendEvent_ok (log : List CanonicalEvent) (ks : InMemoryKeystore)
    (etype : Str) (payload : Val) (signer freshId : Str) (now : Int)
    (log' : List CanonicalEvent) (eid : Str)
    (h : appendEvent log ks etype payload signer freshId now =
      .ok (log', eid)) :
    ∃ e, log' = log ++ [e] ∧
      e.prev_hash = log.getLast?.map (fun p => hashCanonical (eventVal p)) ∧
      e.signer = signer ∧ e.type = etype ∧ e.id = freshId ∧
      e.payload = payload ∧ e.timestamp = now ∧ SigOk ks e := by
  simp only [appendEvent] at h
  split at h
  next e heq => exact absurd h (by simp)
  next sig heq =>
    simp only [Except.ok.injEq, Prod.mk.injEq] at h
    obtain ⟨hlog, heid⟩ := h
    obtain ⟨kp, hfind, hp, hsigeq⟩ := keystoreSign_ok _ _ _ _ heq
    subst hsigeq
    refine ⟨_, hlog.symm, rfl, rfl, rfl, rfl, rfl, rfl, kp, hfind, hp, rfl⟩

/-- Appending a correctly linked, correctly signed event to the tail
preserves the chain invariant. -/
theorem chainedFrom_snoc (ks : InMemoryKeystore) :
    ∀ (l : List CanonicalEvent) (prevOpt : Option CanonicalEvent)
      (e : CanonicalEvent),
      ChainedFrom ks prevOpt l →
      e.prev_hash = (match l.getLast? with
        | some p => some (hashCanonical (eventVal p))
        | none => prevOpt.map fun p => hashCanonical (eventVal p)) →
      SigOk ks e →
      ChainedFrom ks prevOpt (l ++ [e])
  | [], prevOpt, e, _, hprev, hsig => ⟨hprev, hsig, trivial⟩
  | a :: l, prevOpt, e, ⟨haprev, hasig, hrest⟩, hprev, hsig => by
    refine ⟨haprev, hasig, chainedFrom_snoc ks l (some a) e hrest ?_ hsig⟩
    cases l with
    | nil => exact hprev
    | cons b l' => simpa [List.getLast?_cons_cons] using hprev

/-- The hash-continuity component is empty when there is no previous
event, or when the link matches. -/
theorem hashLinkErrors_eq_nil_iff (i : Nat) (prevOpt : Option CanonicalEvent)
    (e : CanonicalEvent) :
    hashLinkErrors i prevOpt e = [] ↔
      ∀ prev, prevOpt = some prev →
        e.prev_hash = some (hashCanonical (eventVal prev)) := by
  cases prevOpt with
  | none => simp [hashLinkErrors]
  | some prev =>
    simp only [hashLinkErrors]
    by_cases hc : e.prev_hash = some (hashCanonical (eventVal prev))
    · simp [hc]
    · simp only [hc, if_false]
      simp only [List.cons_ne_nil, false_iff]
      intro hall
      exact hc (hall prev rfl)

/-- The signature component is empty exactly when the signer's public
key is known and verification succeeds. -/
theorem sigCheckErrors_eq_nil_iff (ks : InMemoryKeystore)
    (e : CanonicalEvent) :
    sigCheckErrors ks e = [] ↔
      ∃ pk, getPublicKey ks (str "ed25519:" ++ e.signer) = some pk ∧
        keystoreVerify e.signature (canonString (eventSansSigVal e)) pk =
          true := by
  cases hpk : getPublicKey ks (str "ed25519:" ++ e.signer) with
  | none => simp [sigCheckErrors, hpk]
  | some pk =>
    by_cases hv : keystoreVerify e.signature
        (canonString (eventSansSigVal e)) pk = true
    · simp [sigCheckErrors, hpk, hv]
    · simp [sigCheckErrors, hpk, hv]

/-- An honestly built chain produces no verification errors. -/
theorem chainErrors_of_chained (ks : InMemoryKeystore) :
    ∀ (l : List CanonicalEvent) (i : Nat)
      (prevOpt : Option CanonicalEvent),
      ChainedFrom ks prevOpt l → chainErrorsAux ks i prevOpt l = []
  | [], _, _, _ => rfl
  | e :: rest, i, prevOpt, ⟨hprev, ⟨kp, hfind, _, hsigform⟩, hchain⟩ => by
    have hhash : hashLinkErrors i prevOpt e = [] := by
      rw [hashLinkErrors_eq_nil_iff]
      intro prev hpo
      rw [hpo] at hprev
      exact hprev
    have hsig : sigCheckErrors ks e = [] := by
      rw [sigCheckErrors_eq_nil_iff]
      refine ⟨kp.key, ?_, ?_⟩
      · unfold getPublicKey
        rw [hfind]
        rfl
      · rw [hsigform]
        simp [keystoreVerify]
    unfold chainErrorsAux eventErrors
    rw [hhash, hsig, chainErrors_of_chained ks rest (i + 1) (some e) hchain]
    rfl

/-- Positional facts carried by the chain invariant: the head links to
`prevOpt`, every later event links to its predecessor, and every event
is genuinely signed. -/
theorem chained_get (ks : InMemoryKeystore) :
    ∀ (l : List CanonicalEvent) (prevOpt : Option CanonicalEvent),
      ChainedFrom ks prevOpt l →
      (∀ h0 : 0 < l.length,
        l[0].prev_hash = prevOpt.map fun p => hashCanonical (eventVal p)) ∧
      (∀ i, ∀ hi : i + 1 < l.length,
        l[i + 1].prev_hash = some (hashCanonical (eventVal l[i]))) ∧
      (∀ i, ∀ hi : i < l.length, SigOk ks l[i])
  | [], _, _ => by
    refine ⟨fun h0 => absurd h0 (by simp), fun i hi => absurd hi (by simp),
      fun i hi => absurd hi (by simp)⟩
  | e :: rest, prevOpt, ⟨hprev, hsig, hchain⟩ => by
    obtain ⟨ih0, ih1, ih2⟩ := chained_get ks rest (some e) hchain
    refine ⟨fun _ => hprev, ?_, ?_⟩
    · intro i hi
      cases i with
      | zero =>
        have hr : 0 < rest.length := by
          simpa using hi
        simpa using ih0 hr
      | succ j =>
        have hr : j + 1 < rest.length := by
          simpa using hi
        simpa using ih1 j hr
    · intro i hi
      cases i with
      | zero => exact hsig
      | succ j =>
        have hr : j < rest.length := by
          simpa using hi
        simpa using ih2 j hr

/-- If verification produces no errors then every `prev_hash` link and
every signature check holds. -/
theorem chained_of_noErrors (ks : InMemoryKeystore) :
    ∀ (l : List CanonicalEvent) (i : Nat)
      (prevOpt : Option CanonicalEvent),
      chainErrorsAux ks i prevOpt l = [] →
      (∀ j, ∀ hj : j + 1 < l.length,
        l[j + 1].prev_hash = some (hashCanonical (eventVal l[j]))) ∧
      (∀ j, ∀ hj : j < l.length, ∃ pk,
        getPublicKey ks (str "ed25519:" ++ l[j].signer) = some pk ∧
        keystoreVerify l[j].signature
          (canonString (eventSansSigVal l[j])) pk = true)
  | [], _, _, _ => by
    refine ⟨fun j hj => absurd hj (by simp), fun j hj => absurd hj (by simp)⟩
  | e :: rest, i, prevOpt, h => by
    unfold chainErrorsAux eventErrors at h
    rw [List.append_assoc, List.append_eq_nil, List.append_eq_nil] at h
    obtain ⟨hhash, hsig, htail⟩ := h
    obtain ⟨ih1, ih2⟩ := chained_of_noErrors ks rest (i + 1) (some e) htail
    have hsig' := (sigCheckErrors_eq_nil_iff ks e).mp hsig
    have hheadrest : ∀ hr : 0 < rest.length,
        rest[0].prev_hash = some (hashCanonical (eventVal e)) := by
      cases rest with
      | nil => intro hr; exact absurd hr (by simp)
      | cons b rest' =>
        intro hr
        unfold chainErrorsAux eventErrors at htail
        rw [List.append_assoc, List.append_eq_nil] at htail
        obtain ⟨hbhash, _⟩ := htail
        have := (hashLinkErrors_eq_nil_iff (i + 1) (some e) b).mp hbhash
        simpa using this e rfl
    refine ⟨?_, ?_⟩
    · intro j hj
      cases j with
      | zero =>
        have hr : 0 < rest.length := by simpa using hj
        simpa using hheadrest hr
      | succ k =>
        have hr : k + 1 < rest.length := by simpa using hj
        simpa using ih1 k hr
    · intro j hj
      cases j with
      | zero => exact hsig'
      | succ k =>
        have hr : k < rest.length := by simpa using hj
        simpa using ih2 k hr

/-- Building a log by `append` calls maintains the chain invariant. -/
theorem appendMany_chained (ks : InMemoryKeystore) :
    ∀ (reqs : List AppendReq) (log log' : List CanonicalEvent),
      ChainedFrom ks none log → appendMany ks log reqs = .ok log' →
      ChainedFrom ks none log'
  | [], log, log', hc, h => by
    unfold appendMany at h
    simp only [Except.ok.injEq] at h
    subst h
    exact hc
  | r :: rs, log, log', hc, h => by
    unfold appendMany at h
    cases happ : appendEvent log ks r.type r.payload r.signer r.id
        r.timestamp with
    | error e => rw [happ] at h; exact absurd h (by simp)
    | ok p =>
      rw [happ] at h
      obtain ⟨e, hlog1, hprev, _, _, _, _, _, hsig⟩ :=
        appendEvent_ok log ks r.type r.payload r.signer r.id r.timestamp
          p.1 p.2 (by rw [happ])
      have hc1 : ChainedFrom ks none p.1 := by
        rw [hlog1]
        refine chainedFrom_snoc ks log none e hc ?_ hsig
        cases hl : log.getLast? with
        | none => simpa [hl] using hprev
        | some q => simpa [hl] using hprev
      exact appendMany_chained ks rs p.1 log' hc1 h

/-- C2: for every log built solely by `append` calls whose signers have
keystore keys, every event at index `i > 0` carries `prev_hash` equal to
the canonical SHA-256 of the entire previous event, the first event has
no `prev_hash`, each signature is genuine over the canonical form of the
event minus its signature field, and `verifyChain` returns `valid = true`
with `eventsVerified` equal to the log length; conversely `verifyChain`
returns `valid = false` whenever some `prev_hash` or signature fails to
match. -/
theorem eventlog_chain_spec (ks : InMemoryKeystore)
    (reqs : List AppendReq) (log : List CanonicalEvent)
    (h : appendMany ks [] reqs = .ok log) :
    (∀ i, ∀ hi : i + 1 < log.length,
      log[i + 1].prev_hash = some (hashCanonical (eventVal log[i]))) ∧
    (∀ h0 : 0 < log.length, log[0].prev_hash = none) ∧
    (∀ i, ∀ hi : i < log.length, ∃ kp,
      findKey ks.keys (str "ed25519:" ++ log[i].signer) = some kp ∧
      log[i].signature =
        .genuine kp.key (canonString (eventSansSigVal log[i]))) ∧
    verifyChain log ks =
      { valid := true, errors := [], eventsVerified := log.length } ∧
    (∀ log' : List CanonicalEvent,
      ((∃ i, ∃ hi : i + 1 < log'.length,
          log'[i + 1].prev_hash ≠
            some (hashCanonical (eventVal log'[i]))) ∨
        (∃ i, ∃ hi : i < log'.length, ∀ pk,
          getPublicKey ks (str "ed25519:" ++ log'[i].signer) = some pk →
          keystoreVerify log'[i].signature
            (canonString (eventSansSigVal log'[i])) pk = false)) →
      (verifyChain log' ks).valid = false) := by
  have hchain : ChainedFrom ks none log :=
    appendMany_chained ks reqs [] log trivial h
  obtain ⟨h0, h1, h2⟩ := chained_get ks log none hchain
  have herr : chainErrorsAux ks 0 none log = [] :=
    chainErrors_of_chained ks log 0 none hchain
  refine ⟨h1, ?_, ?_, ?_, ?_⟩
  · intro hlen
    simpa using h0 hlen
  · intro i hi
    obtain ⟨kp, hfind, _, hsigform⟩ := h2 i hi
    exact ⟨kp, hfind, hsigform⟩
  · unfold verifyChain
    rw [herr]
    rfl
  · intro log' hbad
    by_contra hvalid
    rw [Bool.not_eq_false] at hvalid
    unfold verifyChain at hvalid
    simp only [List.isEmpty_iff] at hvalid
    obtain ⟨hadj, hsigok⟩ := chained_of_noErrors ks log' 0 none hvalid
    cases hbad with
    | inl hb =>
      obtain ⟨i, hi, hne⟩ := hb
      exact hne (hadj i hi)
    | inr hb =>
      obtain ⟨i, hi, hall⟩ := hb
      obtain ⟨pk, hpk, hv⟩ := hsigok i hi
      rw [hall pk hpk] at hv
      exact absurd hv (by simp)

/-- Keystore holding keys for `user:me` and `provider:p` (witness
setup). -/
def c2Keystore : InMemoryKeystore :=
  (ensureUserKey (ensureUserKey ⟨[]⟩ (str "user:me") 0).2
    (str "provider:p") 1).2

/-- Two concrete append requests (witness setup). -/
def c2Reqs : List AppendReq :=
  [{ type := str "COMMITTED",
     payload := .vobj [(str "mandate_id", .vstr (str "mid-1"))],
     signer := str "user:me", id := str "evt-1", timestamp := 3 },
   { type := str "RECEIPT_ISSUED",
     payload := .vobj [(str "receipt_id", .vstr (str "rid-1"))],
     signer := str "provider:p", id := str "evt-2", timestamp := 4 }]

/-- The log built from `c2Reqs` (witness setup). -/
def c2Log : List CanonicalEvent :=
  match appendMany c2Keystore [] c2Reqs with
  | .ok l => l
  | .error _ => []

/-- Witness for C2: the chain theorem applied to a concretely built
two-event log. -/
theorem eventlog_chain_spec_witness :
    verifyChain c2Log c2Keystore =
      { valid := true, errors := [], eventsVerified := c2Log.length } :=
  (eventlog_chain_spec c2Keystore c2Reqs c2Log rfl).2.2.2.1

/-!  ## Commit paths of the adapter kernel -/

/-- The `COMMITTED` payload built by `commit`. -/
def committedPayload (prop : Proposal) (m : DelegationMandate) : Val :=
  .vobj [(str "action", .vstr prop.action.tool),
    (str "mandateId", .vstr m.mandate_id),
    (str "proposalId", .vstr prop.id)]

/-- The receipt parameters built by `commit`. -/
def commitReceiptParams (prop : Proposal) (m : DelegationMandate)
    (out : Val) : IssueReceiptParams :=
  { mandate_id := some m.mandate_id,
    actor := str "adapter:mcp-fs",
    action := prop.action.tool,
    request_hash := prop.mirrorRef,
    response_hash := some (hashCanonical out),
    provider_metadata := some (.vobj
      [(str "adapter_version", .vstr (str "0.1.0")),
        (str "attested_by", .vstr m.issuer)]),
    mirror_ref := prop.mirrorRef }

/-- The `RECEIPT_ISSUED` payload built by `commit`. -/
def receiptIssuedPayload (prop : Proposal) (m : DelegationMandate)
    (receipt : ExecutionReceipt) : Val :=
  .vobj [(str "mandateId", .vstr m.mandate_id),
    (str "proposalId", .vstr prop.id),
    (str "receiptId", .vstr receipt.receipt_id)]

/-- Run of `commit` in which all three gates pass, the `COMMITTED` event
is appended, and then the tool executor throws: the executor's error
propagates and the state keeps the extended log, with the proposal map
untouched. -/
theorem commit_run_executorFails (st : AdapterState) (proposalId : Str)
    (m : DelegationMandate) (f : CommitFresh)
    (callTool : Str → Val → Except Str Val) (prop : Proposal)
    (log1 : List CanonicalEvent) (eid msg : Str)
    (h1 : findProposal st.proposals proposalId = some prop)
    (h2 : prop.status = ProposalStatus.pending)
    (h3 : (verifyMandate m st.keystore (some st.eventLog) f.now).valid =
      true)
    (h4 : adapterIsMandateRevoked m.mandate_id st.eventLog = false)
    (h5 : isActionInScope prop.action.tool m = true)
    (happ : appendEvent st.eventLog st.keystore (str "COMMITTED")
      (committedPayload prop m) m.delegate f.committedEvtId f.now =
      .ok (log1, eid))
    (hexec : callTool prop.action.tool prop.action.arguments =
      .error msg) :
    commit st proposalId m f callTool =
      ({ st with eventLog := log1 }, .error msg) := by
  simp only [committedPayload] at happ
  simp only [commit, h1, h2, h3, h4, h5, happ, hexec]
  simp

/-- Run of `commit` in which all three gates pass and every downstream
step succeeds: the result is the committed state and the receipt. -/
theorem commit_run_success (st : AdapterState) (proposalId : Str)
    (m : DelegationMandate) (f : CommitFresh)
    (callTool : Str → Val → Except Str Val) (prop : Proposal)
    (log1 log2 : List CanonicalEvent) (eid eid2 skid : Str)
    (ks1 : InMemoryKeystore) (out : Val) (receipt : ExecutionReceipt)
    (h1 : findProposal st.proposals proposalId = some prop)
    (h2 : prop.status = ProposalStatus.pending)
    (h3 : (verifyMandate m st.keystore (some st.eventLog) f.now).valid =
      true)
    (h4 : adapterIsMandateRevoked m.mandate_id st.eventLog = false)
    (h5 : isActionInScope prop.action.tool m = true)
    (happ : appendEvent st.eventLog st.keystore (str "COMMITTED")
      (committedPayload prop m) m.delegate f.committedEvtId f.now =
      .ok (log1, eid))
    (hexec : callTool prop.action.tool prop.action.arguments = .ok out)
    (hens : ensureUserKey st.keystore m.issuer f.issuerKeySeed =
      (skid, ks1))
    (hrec : issueReceipt (commitReceiptParams prop m out) ks1 skid
      f.receiptId f.now = .ok receipt)
    (happ2 : appendEvent log1 ks1 (str "RECEIPT_ISSUED")
      (receiptIssuedPayload prop m receipt) m.issuer f.receiptEvtId
      f.now = .ok (log2, eid2)) :
    commit st proposalId m f callTool =
      ({ proposals := setStatus st.proposals prop.id .committed,
         eventLog := log2, keystore := ks1, mirror := st.mirror },
       .ok { output := out, receipt := receipt }) := by
  simp only [committedPayload] at happ
  simp only [commitReceiptParams] at hrec
  simp only [receiptIssuedPayload] at happ2
  simp only [commit, h1, h2, h3, h4, h5, happ, hexec, hens, hrec, happ2]
  simp

/-!  ## C5: executor failure during commit (corrected) -/

/-- C5 (amended): when the executor throws during a `commit` whose three
gates passed, the error propagates to the caller and the already-appended
`COMMITTED` event (signed by the delegate) is not rolled back — but no
`EXECUTION_FAILED` event is appended on this path (that event type is
emitted only by the wrapping `SovereignAdapter.execute`), and the
proposal map is untouched. -/
theorem commit_executorThrow_spec (st : AdapterState) (proposalId : Str)
    (m : DelegationMandate) (f : CommitFresh)
    (callTool : Str → Val → Except Str Val) (prop : Proposal)
    (log1 : List CanonicalEvent) (eid msg : Str)
    (h1 : findProposal st.proposals proposalId = some prop)
    (h2 : prop.status = ProposalStatus.pending)
    (h3 : (verifyMandate m st.keystore (some st.eventLog) f.now).valid =
      true)
    (h4 : adapterIsMandateRevoked m.mandate_id st.eventLog = false)
    (h5 : isActionInScope prop.action.tool m = true)
    (happ : appendEvent st.eventLog st.keystore (str "COMMITTED")
      (committedPayload prop m) m.delegate f.committedEvtId f.now =
      .ok (log1, eid))
    (hexec : callTool prop.action.tool prop.action.arguments =
      .error msg) :
    commit st proposalId m f callTool =
      ({ st with eventLog := log1 }, .error msg) ∧
    (∃ e, log1 = st.eventLog ++ [e] ∧ e.type = str "COMMITTED" ∧
      e.signer = m.delegate) ∧
    log1.filter (fun e => e.type = str "EXECUTION_FAILED") =
      st.eventLog.filter fun e => e.type = str "EXECUTION_FAILED" := by
  obtain ⟨e, hlog, hprev, hsigner, htype, hid, hpayload, hts, hsig⟩ :=
    appendEvent_ok _ _ _ _ _ _ _ _ _
      (by simpa [committedPayload] using happ)
  refine ⟨commit_run_executorFails st proposalId m f callTool prop log1
    eid msg h1 h2 h3 h4 h5 happ hexec, ⟨e, hlog, htype, hsigner⟩, ?_⟩
  rw [hlog, List.filter_append]
  have hfe : (str "COMMITTED" : Str) ≠ str "EXECUTION_FAILED" := by decide
  have hone : List.filter
      (fun e => decide (e.type = str "EXECUTION_FAILED")) [e] = [] := by
    simp [List.filter_cons, htype, hfe]
  rw [hone, List.append_nil]

/-!  ## Concrete adapter scenario (shared by the witnesses and the
concrete counterexamples) -/

/-- Extract the value of a successful computation (the demo runs below
all succeed; the default is never used). -/
def okOr {α : Type} (d : α) : Except Str α → α
  | .ok x => x
  | .error _ => d

/-- Placeholder proposal for `okOr`. -/
def dummyProposal : Proposal :=
  { id := [], action := { tool := [], arguments := .vnull }, mirrorRef := [],
    eventId := [], status := .pending, createdAt := 0 }

/-- Placeholder receipt for `okOr`. -/
def dummyReceipt : ExecutionReceipt :=
  { receipt_id := [], actor := [], action := [], request_hash := [],
    timestamp := 0, mirror_ref := [], signature := .invalid [] }

/-- Demo keystore: keys for `user:alice` (issuer) and `adapter:mcp-fs`
(delegate and adapter identity). -/
def demoKeystore : InMemoryKeystore :=
  (ensureUserKey (ensureUserKey ⟨[]⟩ (str "user:alice") 0).2
    (str "adapter:mcp-fs") 1).2

/-- Demo unsigned mandate: alice delegates `read_file` to the adapter. -/
def demoM0 : DelegationMandate := createMandate
  { issuer := str "user:alice", delegate := str "adapter:mcp-fs",
    scope := { actions := [str "read_file"], resources := [str "file:*"] },
    validity := {} }
  (str "mid-1") 5

/-- The demo mandate signed with alice's key. -/
def demoM : DelegationMandate :=
  okOr demoM0 (signMandate demoM0 demoKeystore (str "ed25519:user:alice"))

/-- The demo tool action. -/
def demoAction : ToolAction :=
  { tool := str "read_file",
    arguments := .vobj [(str "path", .vstr (str "/home/secrets.txt"))] }

/-- Initial demo adapter state. -/
def demoSt0 : AdapterState :=
  { proposals := [], eventLog := [], keystore := demoKeystore, mirror := [] }

/-- The demo propose call. -/
def demoProposeRes : AdapterState × Proposal :=
  okOr (demoSt0, dummyProposal)
    (propose demoSt0 demoAction (str "agent:compromised")
      { agentKeySeed := 2, mirrorId := str "mirror-1",
        suggestionEvtId := str "evt-s", proposalId := str "proposal-1",
        now := 7 })

/-- Adapter state after the demo propose. -/
def demoSt1 : AdapterState := demoProposeRes.1

/-- The pending demo proposal. -/
def demoProp : Proposal := demoProposeRes.2

/-- Fresh values for the demo commit. -/
def demoCommitFresh : CommitFresh :=
  { rejectedEvtId := str "evt-rej", committedEvtId := str "evt-c",
    issuerKeySeed := 3, receiptId := str "rid-1",
    receiptEvtId := str "evt-ri", now := 9 }

/-- An executor that must not be reached: it fails with a marker. -/
def execStop : Str → Val → Except Str Val :=
  fun _ _ => .error (str "EXECUTOR_MUST_NOT_RUN")

/-- An executor that succeeds with `null`. -/
def execOkNull : Str → Val → Except Str Val := fun _ _ => .ok .vnull

/-- An executor that throws. -/
def execDiskFail : Str → Val → Except Str Val :=
  fun _ _ => .error (str "Disk failure")

/-- The event log after revoking the demo mandate (the C1 scenario). -/
def c1Log : List CanonicalEvent :=
  (okOr (demoSt1.eventLog, str "")
    (revokeMandate demoM.mandate_id (str "Agent compromised")
      (str "user:alice") demoSt1.keystore demoSt1.eventLog
      (str "evt-r") 8)).1

/-- Adapter state with the pending proposal and the revoked mandate. -/
def c1St : AdapterState := { demoSt1 with eventLog := c1Log }

/-!  ## C1: commit of a revoked mandate (code bug) -/

/-- C1 (failing input): committing a pending proposal with an
otherwise-valid but revoked mandate fails with
`INVALID_MANDATE: Mandate has been revoked` — not with the
`REVOKED_MANDATE` tag the spec and the repository's own enforcement test
expect — because `verifyMandate` is given the event log and already
reports the revocation at Gate 1, making Gate 2 unreachable.  The
proposal is still marked `rejected`, a `PROPOSAL_REJECTED` event (with
reason `INVALID_MANDATE`) is appended, and the executor is never
consulted (two different executors yield the identical outcome). -/
theorem commit_revoked_gate_mismatch :
    isMandateRevoked c1St.eventLog demoM.mandate_id = true ∧
    (findProposal c1St.proposals demoProp.id).map Proposal.status =
      some .pending ∧
    (commit c1St demoProp.id demoM demoCommitFresh execStop).2 =
      .error (str "INVALID_MANDATE: Mandate has been revoked") ∧
    (commit c1St demoProp.id demoM demoCommitFresh execOkNull).2 =
      .error (str "INVALID_MANDATE: Mandate has been revoked") ∧
    (findProposal
        (commit c1St demoProp.id demoM demoCommitFresh execStop).1.proposals
        demoProp.id).map Proposal.status = some .rejected ∧
    ((commit c1St demoProp.id demoM demoCommitFresh
        execStop).1.eventLog.getLast?).map CanonicalEvent.type =
      some (str "PROPOSAL_REJECTED") ∧
    ((commit c1St demoProp.id demoM demoCommitFresh
        execStop).1.eventLog.getLast?).map
        (fun e => getStrField e.payload (str "reason")) =
      some (some (str "INVALID_MANDATE")) :=
  ⟨by decide, by decide, rfl, rfl, by decide, by decide, by decide⟩

/-!  ## C5 (continued): concrete counterexample and witness -/

/-- C5 (counterexample): in a commit whose three gates pass and whose
executor throws `Disk failure`, the error propagates but the resulting
event log contains no `EXECUTION_FAILED` event at all — the last event
is the `COMMITTED` record — refuting the claim that commit appends an
`EXECUTION_FAILED` event carrying the error message. -/
theorem commit_executorThrow_counterexample :
    (commit demoSt1 demoProp.id demoM demoCommitFresh execDiskFail).2 =
      .error (str "Disk failure") ∧
    ((commit demoSt1 demoProp.id demoM demoCommitFresh
        execDiskFail).1.eventLog.filter
      fun e => e.type = str "EXECUTION_FAILED") = [] ∧
    ((commit demoSt1 demoProp.id demoM demoCommitFresh
        execDiskFail).1.eventLog.getLast?).map CanonicalEvent.type =
      some (str "COMMITTED") :=
  ⟨rfl, rfl, by decide⟩

/-- The log extended by the demo `COMMITTED` event (C5 witness setup). -/
def c5Append : List CanonicalEvent × Str :=
  okOr ([], str "")
    (appendEvent demoSt1.eventLog demoSt1.keystore (str "COMMITTED")
      (committedPayload demoProp demoM) demoM.delegate
      demoCommitFresh.committedEvtId demoCommitFresh.now)

/-- Witness for C5 (amended): the executor-throw theorem applied to the
concrete demo scenario. -/
theorem commit_executorThrow_spec_witness :
    commit demoSt1 demoProp.id demoM demoCommitFresh execDiskFail =
      ({ demoSt1 with eventLog := c5Append.1 },
        .error (str "Disk failure")) :=
  (commit_executorThrow_spec demoSt1 demoProp.id demoM demoCommitFresh
    execDiskFail demoProp c5Append.1 c5Append.2 (str "Disk failure")
    rfl rfl (by decide) (by decide) (by decide) rfl rfl).1

/-!  ## C10: proposal stays pending after executor failure -/

/-- C10: if the executor throws during a commit whose three gates
passed, the proposal map is untouched and the proposal remains
`pending`; a later commit of the same proposal is therefore not refused
by the status gate, and when the gates pass again with a succeeding
executor the retry commits successfully — even though the `COMMITTED`
event of the first attempt is already in the log. -/
theorem commit_executorThrow_retry (st : AdapterState) (proposalId : Str)
    (m : DelegationMandate) (f : CommitFresh)
    (callTool : Str → Val → Except Str Val) (prop : Proposal)
    (log1 : List CanonicalEvent) (eid msg : Str)
    (h1 : findProposal st.proposals proposalId = some prop)
    (h2 : prop.status = ProposalStatus.pending)
    (h3 : (verifyMandate m st.keystore (some st.eventLog) f.now).valid =
      true)
    (h4 : adapterIsMandateRevoked m.mandate_id st.eventLog = false)
    (h5 : isActionInScope prop.action.tool m = true)
    (happ : appendEvent st.eventLog st.keystore (str "COMMITTED")
      (committedPayload prop m) m.delegate f.committedEvtId f.now =
      .ok (log1, eid))
    (hexec : callTool prop.action.tool prop.action.arguments =
      .error msg) :
    ((commit st proposalId m f callTool).1.proposals = st.proposals ∧
      (findProposal (commit st proposalId m f callTool).1.proposals
        proposalId).map Proposal.status = some .pending) ∧
    (∀ (f2 : CommitFresh) (callTool2 : Str → Val → Except Str Val)
      (log1' log2' : List CanonicalEvent) (eidA eidB skid : Str)
      (ks1 : InMemoryKeystore) (out : Val) (receipt : ExecutionReceipt),
      (verifyMandate m st.keystore (some log1) f2.now).valid = true →
      adapterIsMandateRevoked m.mandate_id log1 = false →
      appendEvent log1 st.keystore (str "COMMITTED")
        (committedPayload prop m) m.delegate f2.committedEvtId f2.now =
        .ok (log1', eidA) →
      callTool2 prop.action.tool prop.action.arguments = .ok out →
      ensureUserKey st.keystore m.issuer f2.issuerKeySeed = (skid, ks1) →
      issueReceipt (commitReceiptParams prop m out) ks1 skid f2.receiptId
        f2.now = .ok receipt →
      appendEvent log1' ks1 (str "RECEIPT_ISSUED")
        (receiptIssuedPayload prop m receipt) m.issuer f2.receiptEvtId
        f2.now = .ok (log2', eidB) →
      commit (commit st proposalId m f callTool).1 proposalId m f2
          callTool2 =
        ({ proposals := setStatus st.proposals prop.id .committed,
           eventLog := log2', keystore := ks1, mirror := st.mirror },
         .ok { output := out, receipt := receipt })) := by
  have hrun := commit_run_executorFails st proposalId m f callTool prop
    log1 eid msg h1 h2 h3 h4 h5 happ hexec
  constructor
  · rw [hrun]
    refine ⟨rfl, ?_⟩
    show (findProposal st.proposals proposalId).map Proposal.status =
      some .pending
    rw [h1]
    simp [h2]
  · intro f2 callTool2 log1' log2' eidA eidB skid ks1 out receipt
      h3' h4' happ' hexec' hens' hrec' happ2'
    rw [hrun]
    exact commit_run_success { st with eventLog := log1 } proposalId m f2
      callTool2 prop log1' log2' eidA eidB skid ks1 out receipt h1 h2 h3'
      h4' h5 happ' hexec' hens' hrec' happ2'

/-- Results of the retry steps of the demo scenario (C10 witness
setup): the second `COMMITTED` append, the issuer key, the reissued
receipt and the `RECEIPT_ISSUED` append. -/
def c10Append1 : List CanonicalEvent × Str :=
  okOr ([], str "")
    (appendEvent c5Append.1 demoSt1.keystore (str "COMMITTED")
      (committedPayload demoProp demoM) demoM.delegate (str "evt-c2") 10)

/-- The issuer key lookup of the retry (C10 witness setup). -/
def c10Ens : Str × InMemoryKeystore :=
  ensureUserKey demoSt1.keystore demoM.issuer 3

/-- The receipt issued by the retry (C10 witness setup). -/
def c10Receipt : ExecutionReceipt :=
  okOr dummyReceipt
    (issueReceipt (commitReceiptParams demoProp demoM (.vstr (str "ok")))
      c10Ens.2 c10Ens.1 (str "rid-2") 10)

/-- The `RECEIPT_ISSUED` append of the retry (C10 witness setup). -/
def c10Append2 : List CanonicalEvent × Str :=
  okOr ([], str "")
    (appendEvent c10Append1.1 c10Ens.2 (str "RECEIPT_ISSUED")
      (receiptIssuedPayload demoProp demoM c10Receipt) demoM.issuer
      (str "evt-ri2") 10)

/-- Fresh values for the retry commit (C10 witness setup). -/
def c10Fresh2 : CommitFresh :=
  { rejectedEvtId := str "evt-rej2", committedEvtId := str "evt-c2",
    issuerKeySeed := 3, receiptId := str "rid-2",
    receiptEvtId := str "evt-ri2", now := 10 }

/-- The executor used by the successful retry. -/
def execRetryOk : Str → Val → Except Str Val :=
  fun _ _ => .ok (.vstr (str "ok"))

/-- Witness for C10: after the demo executor failure the proposal is
pending, and the concrete retry commit succeeds. -/
theorem commit_executorThrow_retry_witness :
    (findProposal
        (commit demoSt1 demoProp.id demoM demoCommitFresh
          execDiskFail).1.proposals demoProp.id).map Proposal.status =
      some .pending ∧
    commit (commit demoSt1 demoProp.id demoM demoCommitFresh
        execDiskFail).1 demoProp.id demoM c10Fresh2 execRetryOk =
      ({ proposals := setStatus demoSt1.proposals demoProp.id .committed,
         eventLog := c10Append2.1, keystore := c10Ens.2,
         mirror := demoSt1.mirror },
       .ok { output := .vstr (str "ok"), receipt := c10Receipt }) :=
  have h := commit_executorThrow_retry demoSt1 demoProp.id demoM
    demoCommitFresh execDiskFail demoProp c5Append.1 c5Append.2
    (str "Disk failure") rfl rfl (by decide) (by decide) (by decide)
    rfl rfl
  ⟨h.1.2,
    h.2 c10Fresh2 execRetryOk c10Append1.1 c10Append2.1 c10Append1.2
      c10Append2.2 c10Ens.1 c10Ens.2 (.vstr (str "ok")) c10Receipt
      (by decide) (by decide) rfl rfl rfl rfl rfl⟩

/-!  ## C7: event ordering of a successful commit -/

/-- Looking up a proposal right after `Map.set` finds it. -/
theorem findProposal_setProposal (ps : List Proposal) (p : Proposal) :
    findProposal (setProposal ps p) p.id = some p := by
  unfold setProposal
  by_cases hmem : (ps.any fun q => q.id = p.id) = true
  · rw [if_pos hmem]
    induction ps with
    | nil => simp at hmem
    | cons a rest ih =>
      by_cases ha : a.id = p.id
      · simp [findProposal, List.find?, ha]
      · have hmem' : (rest.any fun q => q.id = p.id) = true := by
          rcases List.any_eq_true.mp hmem with ⟨q, hq, hq'⟩
          cases hq with
          | head => exact absurd (of_decide_eq_true hq') ha
          | tail _ hq2 =>
            exact List.any_eq_true.mpr ⟨q, hq2, hq'⟩
        simpa [findProposal, List.find?_cons, ha] using ih hmem'
  · rw [if_neg hmem]
    induction ps with
    | nil => simp [findProposal, List.find?]
    | cons a rest ih =>
      have ha : ¬ a.id = p.id := fun h => hmem (List.any_eq_true.mpr
        ⟨a, List.mem_cons_self a rest, decide_eq_true h⟩)
      have hmem' : ¬ (rest.any fun q => q.id = p.id) = true := by
        intro h
        rcases List.any_eq_true.mp h with ⟨q, hq, hq'⟩
        exact hmem (List.any_eq_true.mpr ⟨q, List.mem_cons_of_mem a hq, hq'⟩)
      simpa [findProposal, List.find?_cons, ha] using ih hmem'

/-- Looking up a proposal after a status update finds it with the new
status. -/
theorem findProposal_setStatus (ps : List Proposal) (id : Str)
    (s : ProposalStatus) (q : Proposal)
    (h : findProposal ps id = some q) :
    findProposal (setStatus ps id s) id = some { q with status := s } := by
  induction ps with
  | nil => simp [findProposal, List.find?] at h
  | cons a rest ih =>
    by_cases ha : a.id = id
    · have hd : (decide (a.id = id)) = true := decide_eq_true ha
      simp only [findProposal, List.find?_cons, hd,
        Option.some.injEq] at h
      subst h
      simp [findProposal, setStatus, List.find?_cons, ha]
    · have hd : (decide (a.id = id)) = false := decide_eq_false ha
      simp only [findProposal, List.find?_cons, hd] at h
      have := ih h
      simpa [findProposal, setStatus, List.find?_cons, ha, hd] using this

/-- `rejectProposal` always reports an error. -/
theorem rejectProposal_snd (st : AdapterState) (prop : Proposal)
    (reason : Str) (details : List Str) (f : CommitFresh) (msg : Str) :
    ∃ e, (rejectProposal st prop reason details f msg).2 = .error e := by
  simp only [rejectProposal]
  split
  · exact ⟨_, rfl⟩
  · exact ⟨_, rfl⟩

/-- A key found in a key list is still found after appending entries. -/
theorem findKey_append (l l' : List (Str × KeyPair)) (k : Str)
    (kp : KeyPair) (h : findKey l k = some kp) :
    findKey (l ++ l') k = some kp := by
  induction l with
  | nil => simp [findKey] at h
  | cons e rest ih =>
    obtain ⟨k1, kp1⟩ := e
    simp only [List.cons_append]
    unfold findKey at h ⊢
    by_cases he : k1 = k
    · rw [if_pos he] at h ⊢
      exact h
    · rw [if_neg he] at h ⊢
      exact ih h

/-- A key found in the keystore is still found after `ensureUserKey`
(which only ever appends a fresh entry). -/
theorem findKey_ensureUserKey (ks : InMemoryKeystore) (a : Str)
    (seed : Nat) (k : Str) (kp : KeyPair)
    (h : findKey ks.keys k = some kp) :
    findKey (ensureUserKey ks a seed).2.keys k = some kp := by
  simp only [ensureUserKey]
  split
  · exact h
  · exact findKey_append ks.keys
      [(str "ed25519:" ++ a, ⟨seed, true⟩)] k kp h

/-- A genuinely signed event stays genuinely signed after
`ensureUserKey`. -/
theorem sigOk_ensureUserKey (ks : InMemoryKeystore) (a : Str) (seed : Nat)
    (e : CanonicalEvent) (h : SigOk ks e) :
    SigOk (ensureUserKey ks a seed).2 e := by
  obtain ⟨kp, hfind, hp, hform⟩ := h
  exact ⟨kp, findKey_ensureUserKey ks a seed _ kp hfind, hp, hform⟩

/-- Run of `commit` in which Gate 1 fails. -/
theorem commit_run_invalidMandate (st : AdapterState) (proposalId : Str)
    (m : DelegationMandate) (f : CommitFresh)
    (callTool : Str → Val → Except Str Val) (prop : Proposal)
    (h1 : findProposal st.proposals proposalId = some prop)
    (h2 : prop.status = ProposalStatus.pending)
    (h3 : (verifyMandate m st.keystore (some st.eventLog) f.now).valid =
      false) :
    commit st proposalId m f callTool =
      rejectProposal st prop (str "INVALID_MANDATE")
        (verifyMandate m st.keystore (some st.eventLog) f.now).errors f
        (str "INVALID_MANDATE: " ++ joinSep (str ", ")
          (verifyMandate m st.keystore (some st.eventLog) f.now).errors)
    := by
  simp only [commit, h1, h2, h3]
  simp

/-- Run of `commit` in which Gate 2 fails. -/
theorem commit_run_revoked (st : AdapterState) (proposalId : Str)
    (m : DelegationMandate) (f : CommitFresh)
    (callTool : Str → Val → Except Str Val) (prop : Proposal)
    (h1 : findProposal st.proposals proposalId = some prop)
    (h2 : prop.status = ProposalStatus.pending)
    (h3 : (verifyMandate m st.keystore (some st.eventLog) f.now).valid =
      true)
    (h4 : adapterIsMandateRevoked m.mandate_id st.eventLog = true) :
    commit st proposalId m f callTool =
      rejectProposal st prop (str "REVOKED_MANDATE")
        [str "Authority no longer valid"] f
        (str "REVOKED_MANDATE: Authority no longer valid") := by
  simp only [commit, h1, h2, h3, h4]
  simp

/-- Run of `commit` in which Gate 3 fails. -/
theorem commit_run_scopeViolation (st : AdapterState) (proposalId : Str)
    (m : DelegationMandate) (f : CommitFresh)
    (callTool : Str → Val → Except Str Val) (prop : Proposal)
    (h1 : findProposal st.proposals proposalId = some prop)
    (h2 : prop.status = ProposalStatus.pending)
    (h3 : (verifyMandate m st.keystore (some st.eventLog) f.now).valid =
      true)
    (h4 : adapterIsMandateRevoked m.mandate_id st.eventLog = false)
    (h5 : isActionInScope prop.action.tool m = false) :
    commit st proposalId m f callTool =
      rejectProposal st prop (str "SCOPE_VIOLATION")
        [str "Action " ++ [apos] ++ prop.action.tool ++ [apos] ++
          str " not permitted by mandate"] f
        (str "SCOPE_VIOLATION: Action not permitted by mandate") := by
  simp only [commit, h1, h2, h3, h4, h5]
  simp

/-- Run of `commit` in which the `COMMITTED` append fails. -/
theorem commit_run_appendFails (st : AdapterState) (proposalId : Str)
    (m : DelegationMandate) (f : CommitFresh)
    (callTool : Str → Val → Except Str Val) (prop : Proposal) (e : Str)
    (h1 : findProposal st.proposals proposalId = some prop)
    (h2 : prop.status = ProposalStatus.pending)
    (h3 : (verifyMandate m st.keystore (some st.eventLog) f.now).valid =
      true)
    (h4 : adapterIsMandateRevoked m.mandate_id st.eventLog = false)
    (h5 : isActionInScope prop.action.tool m = true)
    (happ : appendEvent st.eventLog st.keystore (str "COMMITTED")
      (committedPayload prop m) m.delegate f.committedEvtId f.now =
      .error e) :
    commit st proposalId m f callTool = (st, .error e) := by
  simp only [committedPayload] at happ
  simp only [commit, h1, h2, h3, h4, h5, happ]
  simp

/-- Run of `commit` in which the receipt signing fails. -/
theorem commit_run_receiptFails (st : AdapterState) (proposalId : Str)
    (m : DelegationMandate) (f : CommitFresh)
    (callTool : Str → Val → Except Str Val) (prop : Proposal)
    (log1 : List CanonicalEvent) (eid e : Str) (out : Val)
    (h1 : findProposal st.proposals proposalId = some prop)
    (h2 : prop.status = ProposalStatus.pending)
    (h3 : (verifyMandate m st.keystore (some st.eventLog) f.now).valid =
      true)
    (h4 : adapterIsMandateRevoked m.mandate_id st.eventLog = false)
    (h5 : isActionInScope prop.action.tool m = true)
    (happ : appendEvent st.eventLog st.keystore (str "COMMITTED")
      (committedPayload prop m) m.delegate f.committedEvtId f.now =
      .ok (log1, eid))
    (hexec : callTool prop.action.tool prop.action.arguments = .ok out)
    (hrec : issueReceipt (commitReceiptParams prop m out)
      (ensureUserKey st.keystore m.issuer f.issuerKeySeed).2
      (ensureUserKey st.keystore m.issuer f.issuerKeySeed).1
      f.receiptId f.now = .error e) :
    commit st proposalId m f callTool =
      ({ st with
          eventLog := log1,
          keystore := (ensureUserKey st.keystore m.issuer
            f.issuerKeySeed).2 }, .error e) := by
  simp only [committedPayload] at happ
  simp only [commitReceiptParams] at hrec
  simp only [commit, h1, h2, h3, h4, h5, happ, hexec, hrec]
  simp

/-- Run of `commit` in which the `RECEIPT_ISSUED` append fails. -/
theorem commit_run_append2Fails (st : AdapterState) (proposalId : Str)
    (m : DelegationMandate) (f : CommitFresh)
    (callTool : Str → Val → Except Str Val) (prop : Proposal)
    (log1 : List CanonicalEvent) (eid e : Str) (out : Val)
    (receipt : ExecutionReceipt)
    (h1 : findProposal st.proposals proposalId = some prop)
    (h2 : prop.status = ProposalStatus.pending)
    (h3 : (verifyMandate m st.keystore (some st.eventLog) f.now).valid =
      true)
    (h4 : adapterIsMandateRevoked m.mandate_id st.eventLog = false)
    (h5 : isActionInScope prop.action.tool m = true)
    (happ : appendEvent st.eventLog st.keystore (str "COMMITTED")
      (committedPayload prop m) m.delegate f.committedEvtId f.now =
      .ok (log1, eid))
    (hexec : callTool prop.action.tool prop.action.arguments = .ok out)
    (hrec : issueReceipt (commitReceiptParams prop m out)
      (ensureUserKey st.keystore m.issuer f.issuerKeySeed).2
      (ensureUserKey st.keystore m.issuer f.issuerKeySeed).1
      f.receiptId f.now = .ok receipt)
    (happ2 : appendEvent log1
      (ensureUserKey st.keystore m.issuer f.issuerKeySeed).2
      (str "RECEIPT_ISSUED") (receiptIssuedPayload prop m receipt)
      m.issuer f.receiptEvtId f.now = .error e) :
    commit st proposalId m f callTool =
      ({ st with
          eventLog := log1,
          keystore := (ensureUserKey st.keystore m.issuer
            f.issuerKeySeed).2 }, .error e) := by
  simp only [committedPayload] at happ
  simp only [commitReceiptParams] at hrec
  simp only [receiptIssuedPayload] at happ2
  simp only [commit, h1, h2, h3, h4, h5, happ, hexec, hrec, happ2]
  simp

/-- Unfolding `propose` on success: the state gains the mirror entry, a
`SUGGESTION` event signed by the agent, and the pending proposal. -/
theorem propose_ok (s0 : AdapterState) (action : ToolAction)
    (agentId : Str) (pf : ProposeFresh) (st1 : AdapterState)
    (prop : Proposal)
    (hp : propose s0 action agentId pf = .ok (st1, prop)) :
    ∃ sug,
      st1.eventLog = s0.eventLog ++ [sug] ∧
      st1.proposals = setProposal s0.proposals prop ∧
      st1.keystore = (ensureUserKey s0.keystore agentId pf.agentKeySeed).2 ∧
      sug.type = str "SUGGESTION" ∧ sug.signer = agentId ∧
      SigOk st1.keystore sug ∧
      prop.status = ProposalStatus.pending ∧ prop.action = action ∧
      prop.id = pf.proposalId := by
  simp only [propose] at hp
  split at hp
  · exact absurd hp (by simp)
  · next log1 evtId heq =>
    simp only [Except.ok.injEq, Prod.mk.injEq] at hp
    obtain ⟨hst, hprop⟩ := hp
    obtain ⟨sug, hlog, hprev, hsigner, htype, hid, hpayload, hts, hsig⟩ :=
      appendEvent_ok _ _ _ _ _ _ _ _ _ heq
    subst hst
    subst hprop
    exact ⟨sug, by simpa using hlog, rfl, rfl, htype, hsigner, hsig, rfl,
      rfl, rfl⟩

/-- C7: for every successful `commit` of a proposal created by
`propose`, the final event log is the initial log extended by exactly
the `SUGGESTION` event (signed by the agent), then the `COMMITTED` event
signed by `mandate.delegate`, then the `RECEIPT_ISSUED` event signed by
`mandate.issuer`, in that order, with the two commit events carrying the
proposal id and genuine keystore signatures, and the proposal ends in
status `committed`.  (Since every successful commit factors through this
run, no successful commit exists without these matching events.) -/
theorem commit_success_event_order (s0 : AdapterState)
    (action : ToolAction) (agentId : Str) (pf : ProposeFresh)
    (st1 : AdapterState) (prop : Proposal) (m : DelegationMandate)
    (f : CommitFresh) (callTool : Str → Val → Except Str Val)
    (st2 : AdapterState) (res : ExecResult)
    (hp : propose s0 action agentId pf = .ok (st1, prop))
    (hc : commit st1 prop.id m f callTool = (st2, .ok res)) :
    ∃ sug com rec,
      st2.eventLog = s0.eventLog ++ [sug, com, rec] ∧
      sug.type = str "SUGGESTION" ∧ sug.signer = agentId ∧
      com.type = str "COMMITTED" ∧ com.signer = m.delegate ∧
      getStrField com.payload (str "proposalId") = some prop.id ∧
      rec.type = str "RECEIPT_ISSUED" ∧ rec.signer = m.issuer ∧
      getStrField rec.payload (str "proposalId") = some prop.id ∧
      SigOk st2.keystore com ∧ SigOk st2.keystore rec ∧
      (findProposal st2.proposals prop.id).map Proposal.status =
        some ProposalStatus.committed := by
  obtain ⟨sug, hlog1, hprops1, hks1, hstype, hssigner, hssig, hpend,
    hact, hpid⟩ := propose_ok s0 action agentId pf st1 prop hp
  have h1 : findProposal st1.proposals prop.id = some prop := by
    rw [hprops1]
    exact findProposal_setProposal s0.proposals prop
  by_cases h3 : (verifyMandate m st1.keystore (some st1.eventLog)
      f.now).valid = true
  case neg =>
    rw [commit_run_invalidMandate st1 prop.id m f callTool prop h1 hpend
      (Bool.not_eq_true _ ▸ h3 : _ = false)] at hc
    obtain ⟨e, he⟩ := rejectProposal_snd st1 prop (str "INVALID_MANDATE")
      (verifyMandate m st1.keystore (some st1.eventLog) f.now).errors f
      (str "INVALID_MANDATE: " ++ joinSep (str ", ")
        (verifyMandate m st1.keystore (some st1.eventLog) f.now).errors)
    have := congrArg Prod.snd hc
    rw [he] at this
    exact absurd this (by simp)
  case pos =>
  by_cases h4 : adapterIsMandateRevoked m.mandate_id st1.eventLog = true
  case pos =>
    rw [commit_run_revoked st1 prop.id m f callTool prop h1 hpend h3
      h4] at hc
    obtain ⟨e, he⟩ := rejectProposal_snd st1 prop (str "REVOKED_MANDATE")
      [str "Authority no longer valid"] f
      (str "REVOKED_MANDATE: Authority no longer valid")
    have := congrArg Prod.snd hc
    rw [he] at this
    exact absurd this (by simp)
  case neg =>
  rw [Bool.not_eq_true] at h4
  by_cases h5 : isActionInScope prop.action.tool m = true
  case neg =>
    rw [commit_run_scopeViolation st1 prop.id m f callTool prop h1 hpend
      h3 h4 (Bool.not_eq_true _ ▸ h5 : _ = false)] at hc
    obtain ⟨e, he⟩ := rejectProposal_snd st1 prop (str "SCOPE_VIOLATION")
      ((str "Action " ++ [apos] ++ prop.action.tool ++ [apos] ++
        str " not permitted by mandate") :: []) f
      (str "SCOPE_VIOLATION: Action not permitted by mandate")
    have := congrArg Prod.snd hc
    rw [he] at this
    exact absurd this (by simp)
  case pos =>
  cases happ : appendEvent st1.eventLog st1.keystore (str "COMMITTED")
      (committedPayload prop m) m.delegate f.committedEvtId f.now with
  | error e =>
    rw [commit_run_appendFails st1 prop.id m f callTool prop e h1 hpend
      h3 h4 h5 happ] at hc
    have := congrArg Prod.snd hc
    exact absurd this (by simp)
  | ok p1 =>
    cases hexec : callTool prop.action.tool prop.action.arguments with
    | error msg =>
      rw [commit_run_executorFails st1 prop.id m f callTool prop p1.1
        p1.2 msg h1 hpend h3 h4 h5 (by rw [happ]) hexec] at hc
      have := congrArg Prod.snd hc
      exact absurd this (by simp)
    | ok out =>
      cases hrec : issueReceipt (commitReceiptParams prop m out)
          (ensureUserKey st1.keystore m.issuer f.issuerKeySeed).2
          (ensureUserKey st1.keystore m.issuer f.issuerKeySeed).1
          f.receiptId f.now with
      | error e =>
        rw [commit_run_receiptFails st1 prop.id m f callTool prop p1.1
          p1.2 e out h1 hpend h3 h4 h5 (by rw [happ]) hexec hrec] at hc
        have := congrArg Prod.snd hc
        exact absurd this (by simp)
      | ok receipt =>
        cases happ2 : appendEvent p1.1
            (ensureUserKey st1.keystore m.issuer f.issuerKeySeed).2
            (str "RECEIPT_ISSUED") (receiptIssuedPayload prop m receipt)
            m.issuer f.receiptEvtId f.now with
        | error e =>
          rw [commit_run_append2Fails st1 prop.id m f callTool prop p1.1
            p1.2 e out receipt h1 hpend h3 h4 h5 (by rw [happ]) hexec
            hrec happ2] at hc
          have := congrArg Prod.snd hc
          exact absurd this (by simp)
        | ok p2 =>
          rw [commit_run_success st1 prop.id m f callTool prop p1.1 p2.1
            p1.2 p2.2
            (ensureUserKey st1.keystore m.issuer f.issuerKeySeed).1
            (ensureUserKey st1.keystore m.issuer f.issuerKeySeed).2
            out receipt h1 hpend h3 h4 h5 (by rw [happ]) hexec rfl hrec
            (by rw [happ2])] at hc
          rw [Prod.mk.injEq] at hc
          obtain ⟨hst2, _⟩ := hc
          obtain ⟨com, hcomlog, hcomprev, hcomsigner, hcomtype, hcomid,
            hcompayload, hcomts, hcomsig⟩ :=
            appendEvent_ok _ _ _ _ _ _ _ _ _ happ
          obtain ⟨rec, hreclog, hrecprev, hrecsigner, hrectype, hrecid,
            hrecpayload, hrects, hrecsig⟩ :=
            appendEvent_ok _ _ _ _ _ _ _ _ _ happ2
          refine ⟨sug, com, rec, ?_, hstype, hssigner, hcomtype,
            hcomsigner, ?_, hrectype, hrecsigner, ?_, ?_, ?_, ?_⟩
          · rw [← hst2]
            show p2.1 = s0.eventLog ++ [sug, com, rec]
            rw [hreclog, hcomlog, hlog1]
            simp
          · rw [hcompayload]
            rfl
          · rw [hrecpayload]
            rfl
          · rw [← hst2]
            exact sigOk_ensureUserKey st1.keystore m.issuer
              f.issuerKeySeed com hcomsig
          · rw [← hst2]
            exact hrecsig
          · rw [← hst2]
            show (findProposal
              (setStatus st1.proposals prop.id .committed) prop.id).map
                Proposal.status = some ProposalStatus.committed
            rw [findProposal_setStatus st1.proposals prop.id .committed
              prop h1]
            rfl

/-- The demo happy-path commit (C7 witness setup). -/
def c7Commit : AdapterState × Except Str ExecResult :=
  commit demoSt1 demoProp.id demoM demoCommitFresh execOkNull

/-- The state after the demo happy-path commit. -/
def c7St2 : AdapterState := c7Commit.1

/-- The result of the demo happy-path commit. -/
def c7Res : ExecResult :=
  okOr { output := .vnull, receipt := dummyReceipt } c7Commit.2

/-- Witness for C7: the ordering theorem applied to the concrete demo
run; the resulting three-event log is `SUGGESTION`, `COMMITTED`,
`RECEIPT_ISSUED` and the proposal is committed. -/
theorem commit_success_event_order_witness :
    (findProposal c7St2.proposals demoProp.id).map Proposal.status =
      some ProposalStatus.committed ∧
    c7St2.eventLog.map CanonicalEvent.type =
      [str "SUGGESTION", str "COMMITTED", str "RECEIPT_ISSUED"] := by
  obtain ⟨sug, com, rec, hlog, hsugt, hsugs, hcomt, hcoms, hcomp, hrect,
    hrecs, hrecp, hsok1, hsok2, hstatus⟩ :=
    commit_success_event_order demoSt0 demoAction
      (str "agent:compromised")
      { agentKeySeed := 2, mirrorId := str "mirror-1",
        suggestionEvtId := str "evt-s", proposalId := str "proposal-1",
        now := 7 }
      demoSt1 demoProp demoM demoCommitFresh execOkNull c7St2 c7Res rfl
      rfl
  refine ⟨hstatus, ?_⟩
  rw [hlog]
  show ([] ++ [sug, com, rec]).map CanonicalEvent.type = _
  simp [hsugt, hcomt, hrect]

end Sov
